import Mathlib

/-!
The configuration loader of drone-terraform (`main.go`).

A shallow embedding of `run` (main.go, lines 144-204) together with the flag
table of `main` (lines 20-137), and the properties of the loader that the
specification states.

`run` calls four things that live outside `main.go`:

* `encoding/json` (`json.Unmarshal`): embedded below as the scanner state
  machine of the Go library (`checkValid`) extended with the construction of
  the value read, followed by the type directed store into the target.
  Option strings are taken to be valid UTF-8 text, so the scanner runs over
  characters; every character above U+007F behaves as the bytes of its
  encoding do (accepted inside string literals, rejected elsewhere).
* `urfave/cli` (`c.String`, `c.Bool`, `c.Int`, `c.StringSlice`): a context is
  the flag table plus the values supplied for the flags (environment variable
  or command line), already parsed by the framework; a lookup gives the
  supplied value, else the default of the flag.
* `godotenv.Load`, `logrus` and `Plugin.Exec`: effects on the outside world,
  taken as parameters acting on an abstract world state.
* the struct types `InitOptions`, `FmtOptions`, `SummarizeOptions` are
  declared outside `main.go`: they are type parameters, each with its zero
  value and its type directed JSON store.
-/

set_option autoImplicit false

namespace DroneTerraform

/-! ## JSON values -/

/-- A JSON value as read by the decoder. Object members are kept in the order
of the text, repeated keys included; a number keeps its literal text. -/
inductive JSON where
  | null
  | bool (b : Bool)
  | num (lit : String)
  | str (s : String)
  | arr (elems : List JSON)
  | obj (members : List (String × JSON))

/-- An item of a string literal after the scanner: a character (plain, or a
one-letter escape already replaced), or the code unit of a `\uXXXX` escape. -/
inductive StrItem where
  | ch (c : Char)
  | u4 (rr : Nat)

/-- The Unicode replacement character U+FFFD (`unicode.ReplacementChar`). -/
def replacementChar : Char := Char.ofNat 0xFFFD

/-- Go `utf16.IsSurrogate`. -/
def isSurrogate (r : Nat) : Bool := 0xd800 ≤ r && r < 0xe000

/-- Go `utf16.DecodeRune`: the code point of a surrogate pair, `none` standing
for the replacement character returned on an invalid pair. -/
def decodeRune (r1 r2 : Nat) : Option Char :=
  if 0xd800 ≤ r1 && r1 < 0xdc00 && 0xdc00 ≤ r2 && r2 < 0xe000 then
    some (Char.ofNat ((r1 - 0xd800) * 1024 + (r2 - 0xdc00) + 0x10000))
  else none

/-- The `\u` part of `unquoteBytes`: a code unit that is no surrogate is its
own character; a surrogate followed at once by a `\u` escape closing a valid
pair gives the pair's character and consumes both; any other surrogate
becomes U+FFFD and consumes only itself. -/
def unquoteItems : List StrItem → List Char
  | [] => []
  | StrItem.ch c :: rest => c :: unquoteItems rest
  | StrItem.u4 rr :: rest =>
    if isSurrogate rr then
      match rest with
      | StrItem.u4 rr1 :: rest1 =>
        match decodeRune rr rr1 with
        | some dec => dec :: unquoteItems rest1
        | none => replacementChar :: unquoteItems (StrItem.u4 rr1 :: rest1)
      | [] => [replacementChar]
      | StrItem.ch c :: rest1 => replacementChar :: c :: unquoteItems rest1
    else Char.ofNat rr :: unquoteItems rest

/-! ## The scanner of `encoding/json` -/

/-- The step functions of the Go scanner (`stateBeginValue`, ...). -/
inductive Step where
  | stateBeginValueOrEmpty | stateBeginValue | stateBeginStringOrEmpty | stateBeginString
  | stateEndValue | stateEndTop
  | stateInString | stateInStringEsc
  | stateInStringEscU | stateInStringEscU1 | stateInStringEscU12 | stateInStringEscU123
  | stateNeg | state1 | state0 | stateDot | stateDot0 | stateE | stateESign | stateE0
  | stateT | stateTr | stateTru | stateF | stateFa | stateFal | stateFals
  | stateN | stateNu | stateNul
  | stateError
  deriving DecidableEq, Repr

/-- An entry of the scanner's `parseState` stack, carrying what has been read
of the composite value so far (members and elements newest first).
`parseObjectKey`: reading a key, or a key read and `:` awaited (`key` set).
`parseObjectValue`: reading the value of `key`, or the member complete and
`,` or `}` awaited (`key` cleared). -/
inductive Frame where
  | parseObjectKey (members : List (String × JSON)) (key : Option String)
  | parseObjectValue (members : List (String × JSON)) (key : Option String)
  | parseArrayValue (elems : List JSON)

/-- The deepest nesting of arrays and objects the scanner accepts. -/
def maxNestingDepth : Nat := 10000

/-- The scanner: `step`, `endTop` and `parseState` as in Go; `lit`, `items`
and `hex` hold the literal being read (newest first), `top` the complete
top-level value. -/
structure Scanner where
  step : Step
  endTop : Bool
  parseState : List Frame
  lit : List Char
  items : List StrItem
  hex : Nat
  top : Option JSON

namespace Scanner

/-- Go `scanner.reset`. -/
def reset : Scanner :=
  { step := Step.stateBeginValue, endTop := false, parseState := [],
    lit := [], items := [], hex := 0, top := none }

/-- Go `isSpace`. -/
def isSpace (c : Char) : Bool := c = ' ' || c = '\t' || c = '\r' || c = '\n'

/-- A decimal digit. -/
def isDigit (c : Char) : Bool := '0'.toNat ≤ c.toNat && c.toNat ≤ '9'.toNat

/-- The value of a hexadecimal digit, in either case. -/
def hexVal (c : Char) : Option Nat :=
  if '0'.toNat ≤ c.toNat && c.toNat ≤ '9'.toNat then some (c.toNat - '0'.toNat)
  else if 'a'.toNat ≤ c.toNat && c.toNat ≤ 'f'.toNat then some (c.toNat - 'a'.toNat + 10)
  else if 'A'.toNat ≤ c.toNat && c.toNat ≤ 'F'.toNat then some (c.toNat - 'A'.toNat + 10)
  else none

/-- Go `scanner.error`. -/
def error (s : Scanner) : Scanner := { s with step := Step.stateError }

/-- A complete value is stored where it belongs: as the element of the array
being read, as the key or the value of the member being read, or as the
top-level value. -/
def emit (s : Scanner) (v : JSON) : Scanner :=
  match s.parseState with
  | [] => { s with top := some v }
  | Frame.parseArrayValue xs :: st =>
    { s with parseState := Frame.parseArrayValue (v :: xs) :: st }
  | Frame.parseObjectKey ms _ :: st =>
    match v with
    | JSON.str k => { s with parseState := Frame.parseObjectKey ms (some k) :: st }
    | _ => s.error
  | Frame.parseObjectValue ms (some k) :: st =>
    { s with parseState := Frame.parseObjectValue ((k, v) :: ms) none :: st }
  | Frame.parseObjectValue _ none :: _ => s.error

/-- Go `scanner.pushParseState`. -/
def pushParseState (s : Scanner) (f : Frame) (next : Step) : Scanner :=
  let st := f :: s.parseState
  if st.length ≤ maxNestingDepth then { s with parseState := st, step := next }
  else { s with parseState := st, step := Step.stateError }

/-- Go `scanner.popParseState`, the composite value `v` just closed being stored
in the enclosing frame. -/
def popParseState (s : Scanner) (v : JSON) : Scanner :=
  match s.parseState with
  | [] => s.error
  | _ :: st =>
    let s1 := ({ s with parseState := st } : Scanner).emit v
    match s1.step, st with
    | Step.stateError, _ => s1
    | _, [] => { s1 with step := Step.stateEndTop, endTop := true }
    | _, _ :: _ => { s1 with step := Step.stateEndValue }

/-- Step function `stateEndTop`. -/
def stateEndTop (s : Scanner) (c : Char) : Scanner :=
  if isSpace c then s else s.error

/-- Step function `stateEndValue`. -/
def stateEndValue (s : Scanner) (c : Char) : Scanner :=
  match s.parseState with
  | [] => stateEndTop { s with step := Step.stateEndTop, endTop := true } c
  | Frame.parseObjectKey ms key :: st =>
    if isSpace c then { s with step := Step.stateEndValue }
    else if c = ':' then
      { s with parseState := Frame.parseObjectValue ms key :: st, step := Step.stateBeginValue }
    else s.error
  | Frame.parseObjectValue ms _ :: st =>
    if isSpace c then { s with step := Step.stateEndValue }
    else if c = ',' then
      { s with parseState := Frame.parseObjectKey ms none :: st, step := Step.stateBeginString }
    else if c = '}' then s.popParseState (JSON.obj ms.reverse)
    else s.error
  | Frame.parseArrayValue xs :: _ =>
    if isSpace c then { s with step := Step.stateEndValue }
    else if c = ',' then { s with step := Step.stateBeginValue }
    else if c = ']' then s.popParseState (JSON.arr xs.reverse)
    else s.error

/-- Step function `stateBeginValue`. -/
def stateBeginValue (s : Scanner) (c : Char) : Scanner :=
  if isSpace c then s
  else if c = '{' then
    s.pushParseState (Frame.parseObjectKey [] none) Step.stateBeginStringOrEmpty
  else if c = '[' then
    s.pushParseState (Frame.parseArrayValue []) Step.stateBeginValueOrEmpty
  else if c = '"' then { s with step := Step.stateInString, items := [] }
  else if c = '-' then { s with step := Step.stateNeg, lit := [c] }
  else if c = '0' then { s with step := Step.state0, lit := [c] }
  else if c = 't' then { s with step := Step.stateT }
  else if c = 'f' then { s with step := Step.stateF }
  else if c = 'n' then { s with step := Step.stateN }
  else if '1'.toNat ≤ c.toNat && c.toNat ≤ '9'.toNat then { s with step := Step.state1, lit := [c] }
  else s.error

/-- Step function `stateBeginValueOrEmpty`. -/
def stateBeginValueOrEmpty (s : Scanner) (c : Char) : Scanner :=
  if isSpace c then s
  else if c = ']' then stateEndValue s c
  else stateBeginValue s c

/-- Step function `stateBeginString`. -/
def stateBeginString (s : Scanner) (c : Char) : Scanner :=
  if isSpace c then s
  else if c = '"' then { s with step := Step.stateInString, items := [] }
  else s.error

/-- Step function `stateBeginStringOrEmpty`. -/
def stateBeginStringOrEmpty (s : Scanner) (c : Char) : Scanner :=
  if isSpace c then s
  else if c = '}' then
    match s.parseState with
    | Frame.parseObjectKey ms _ :: st =>
      stateEndValue { s with parseState := Frame.parseObjectValue ms none :: st } c
    | _ => s.error
  else stateBeginString s c

/-- Step function `stateInString`; the closing quote completes the string value. -/
def stateInString (s : Scanner) (c : Char) : Scanner :=
  if c = '"' then
    match ({ s with step := Step.stateEndValue } : Scanner).emit
        (JSON.str (String.mk (unquoteItems s.items.reverse))) with
    | s1 => { s1 with items := [] }
  else if c = '\\' then { s with step := Step.stateInStringEsc }
  else if c.toNat < 0x20 then s.error
  else { s with items := StrItem.ch c :: s.items }

/-- Step function `stateInStringEsc`, with the character each one-letter escape stands for
(`unquoteBytes`). -/
def stateInStringEsc (s : Scanner) (c : Char) : Scanner :=
  let plain (d : Char) : Scanner :=
    { s with step := Step.stateInString, items := StrItem.ch d :: s.items }
  if c = 'b' then plain (Char.ofNat 8)
  else if c = 'f' then plain (Char.ofNat 12)
  else if c = 'n' then plain '\n'
  else if c = 'r' then plain '\r'
  else if c = 't' then plain '\t'
  else if c = '\\' || c = '/' || c = '"' then plain c
  else if c = 'u' then { s with step := Step.stateInStringEscU, hex := 0 }
  else s.error

/-- The four states `stateInStringEscU` ... `stateInStringEscU123`: one more
hexadecimal digit, then `next`; after the fourth the escape is complete. -/
def stateInStringEscU (s : Scanner) (c : Char) (next : Step) (last : Bool) : Scanner :=
  match hexVal c with
  | none => s.error
  | some d =>
    if last then
      { s with step := next, items := StrItem.u4 (s.hex * 16 + d) :: s.items, hex := 0 }
    else { s with step := next, hex := s.hex * 16 + d }

/-- The end of a number literal: the number is complete before `c`, which is
then read by `stateEndValue`. -/
def endNumber (s : Scanner) (c : Char) : Scanner :=
  let s1 := ({ s with step := Step.stateEndValue, lit := [] } : Scanner).emit
    (JSON.num (String.mk s.lit.reverse))
  match s1.step with
  | Step.stateError => s1
  | _ => stateEndValue s1 c

/-- One more character of a number literal. -/
def more (s : Scanner) (c : Char) (next : Step) : Scanner :=
  { s with step := next, lit := c :: s.lit }

/-- Step function `state0`. -/
def state0 (s : Scanner) (c : Char) : Scanner :=
  if c = '.' then s.more c Step.stateDot
  else if c = 'e' || c = 'E' then s.more c Step.stateE
  else endNumber s c

/-- Step function `stateESign`. -/
def stateESign (s : Scanner) (c : Char) : Scanner :=
  if isDigit c then s.more c Step.stateE0 else s.error

/-- One letter of `true`, `false` or `null`: `want` leads to `next`; the last
letter completes the literal `done`. -/
def letter (s : Scanner) (c want : Char) (next : Step) (done : Option JSON) : Scanner :=
  if c = want then
    match done with
    | none => { s with step := next }
    | some v => ({ s with step := next } : Scanner).emit v
  else s.error

/-- One step of the scanner on the character `c` (`s.step(s, c)`). -/
def next (s : Scanner) (c : Char) : Scanner :=
  match s.step with
  | Step.stateBeginValueOrEmpty => stateBeginValueOrEmpty s c
  | Step.stateBeginValue => stateBeginValue s c
  | Step.stateBeginStringOrEmpty => stateBeginStringOrEmpty s c
  | Step.stateBeginString => stateBeginString s c
  | Step.stateEndValue => stateEndValue s c
  | Step.stateEndTop => stateEndTop s c
  | Step.stateInString => stateInString s c
  | Step.stateInStringEsc => stateInStringEsc s c
  | Step.stateInStringEscU => stateInStringEscU s c Step.stateInStringEscU1 false
  | Step.stateInStringEscU1 => stateInStringEscU s c Step.stateInStringEscU12 false
  | Step.stateInStringEscU12 => stateInStringEscU s c Step.stateInStringEscU123 false
  | Step.stateInStringEscU123 => stateInStringEscU s c Step.stateInString true
  | Step.stateNeg =>
    if c = '0' then s.more c Step.state0
    else if '1'.toNat ≤ c.toNat && c.toNat ≤ '9'.toNat then s.more c Step.state1
    else s.error
  | Step.state1 => if isDigit c then s.more c Step.state1 else state0 s c
  | Step.state0 => state0 s c
  | Step.stateDot => if isDigit c then s.more c Step.stateDot0 else s.error
  | Step.stateDot0 =>
    if isDigit c then s.more c Step.stateDot0
    else if c = 'e' || c = 'E' then s.more c Step.stateE
    else endNumber s c
  | Step.stateE =>
    if c = '+' || c = '-' then s.more c Step.stateESign else stateESign s c
  | Step.stateESign => stateESign s c
  | Step.stateE0 => if isDigit c then s.more c Step.stateE0 else endNumber s c
  | Step.stateT => letter s c 'r' Step.stateTr none
  | Step.stateTr => letter s c 'u' Step.stateTru none
  | Step.stateTru => letter s c 'e' Step.stateEndValue (some (JSON.bool true))
  | Step.stateF => letter s c 'a' Step.stateFa none
  | Step.stateFa => letter s c 'l' Step.stateFal none
  | Step.stateFal => letter s c 's' Step.stateFals none
  | Step.stateFals => letter s c 'e' Step.stateEndValue (some (JSON.bool false))
  | Step.stateN => letter s c 'u' Step.stateNu none
  | Step.stateNu => letter s c 'l' Step.stateNul none
  | Step.stateNul => letter s c 'l' Step.stateEndValue (some JSON.null)
  | Step.stateError => s

/-- Go `scanner.eof`: the value read when the input ends here, `none` when the
input is no complete JSON text. -/
def eof (s : Scanner) : Option JSON :=
  match s.step with
  | Step.stateError => none
  | _ =>
    if s.endTop then s.top
    else
      let s1 := s.next ' '
      match s1.step with
      | Step.stateError => none
      | _ => if s1.endTop then s1.top else none

end Scanner

/-- Go `checkValid` together with the value read: the scanner is run over the
whole text; `none` is a `*json.SyntaxError`. -/
def parseJSON (data : String) : Option JSON :=
  (data.data.foldl Scanner.next Scanner.reset).eof

/-! ## `json.Unmarshal` -/

/-- The errors of `json.Unmarshal`: a `*json.SyntaxError` from `checkValid`,
or the first `*json.UnmarshalTypeError` saved while storing; `Value` is the
kind of the JSON value and `GoType` the Go type it could not be stored in
(message and offset are left out). -/
inductive JsonError where
  | SyntaxError
  | UnmarshalTypeError (Value : String) (GoType : String)
  deriving DecidableEq, Repr

/-- Go `json.Unmarshal(data, &v)` for a target whose type directed store is
`store`: the text is checked first and `v` is left untouched on a syntax
error; otherwise the value read is stored in `v`. -/
def Unmarshal {α : Type} (store : JSON → α → α × Option JsonError) (data : String) (v : α) :
    α × Option JsonError :=
  match parseJSON data with
  | none => (v, some JsonError.SyntaxError)
  | some j => store j v

/-- The content of a non-nil Go `map[string]string`: its entries, no key
twice. -/
abbrev GoMap := List (String × String)

/-- The map index expression `m[k]` with its `ok` result. -/
def GoMap.get (m : GoMap) (k : String) : Option String :=
  match m with
  | [] => none
  | (k1, v1) :: rest => if k1 = k then some v1 else GoMap.get rest k

/-- The assignment `m[k] = v` (`reflect.Value.SetMapIndex`). -/
def GoMap.set (m : GoMap) (k v : String) : GoMap :=
  match m with
  | [] => [(k, v)]
  | (k1, v1) :: rest => if k1 = k then (k, v) :: rest else (k1, v1) :: GoMap.set rest k v

/-- Go `reflect.DeepEqual` on two values of type `map[string]string`, `none`
being the nil map: both nil or both non-nil, the same length, and every key
of the one bound to the same value in the other. -/
def GoMap.DeepEqual (a b : Option GoMap) : Prop :=
  match a, b with
  | none, none => True
  | some m1, some m2 => m1.length = m2.length ∧ ∀ k, GoMap.get m1 k = GoMap.get m2 k
  | _, _ => False

/-- The store of a JSON value in a map element of type `string`
(`literalStore`, and the `default` cases of `array` and `object`): a string
is stored, `null` leaves the zero value, every other kind leaves the zero
value and reports a type error. -/
def storeString (j : JSON) : String × Option JsonError :=
  match j with
  | JSON.str s => (s, none)
  | JSON.null => ("", none)
  | JSON.bool _ => ("", some (JsonError.UnmarshalTypeError "bool" "string"))
  | JSON.num _ => ("", some (JsonError.UnmarshalTypeError "number" "string"))
  | JSON.arr _ => ("", some (JsonError.UnmarshalTypeError "array" "string"))
  | JSON.obj _ => ("", some (JsonError.UnmarshalTypeError "object" "string"))

/-- The member loop of `decodeState.object` on a map: each member is stored
in a fresh element and written to the map under its key, also after a type
error; the first error is the one kept (`saveError`). -/
def storeMembers (members : List (String × JSON)) (m : GoMap) (saved : Option JsonError) :
    GoMap × Option JsonError :=
  match members with
  | [] => (m, saved)
  | (k, j) :: rest =>
    storeMembers rest (GoMap.set m k (storeString j).1)
      (match saved with
       | some e => some e
       | none => (storeString j).2)

/-- The store of a JSON value in a variable of type `map[string]string`
(`none` is the nil map): `null` sets the nil map, an object fills the map
(made first when nil), every other kind is a type error and leaves the
variable as it is. -/
def storeMap (j : JSON) (v : Option GoMap) : Option GoMap × Option JsonError :=
  match j with
  | JSON.null => (none, none)
  | JSON.obj members =>
    match storeMembers members (v.getD []) none with
    | (m, err) => (some m, err)
  | JSON.bool _ => (v, some (JsonError.UnmarshalTypeError "bool" "map[string]string"))
  | JSON.num _ => (v, some (JsonError.UnmarshalTypeError "number" "map[string]string"))
  | JSON.str _ => (v, some (JsonError.UnmarshalTypeError "string" "map[string]string"))
  | JSON.arr _ => (v, some (JsonError.UnmarshalTypeError "array" "map[string]string"))

/-- A struct type declared outside `main.go` that `run` unmarshals into: its
zero value (`T{}`) and its type directed JSON store. -/
structure Target (α : Type) where
  zero : α
  store : JSON → α → α × Option JsonError

/-! ## The flags of `main` and the `cli.Context` -/

/-- A flag of `urfave/cli` (`Usage` left out). `Value` is the default; string
and int flags declared without one have the zero value, a `BoolFlag` is false
by default. -/
inductive Flag where
  | StringSliceFlag (Name EnvVar : String) (Value : List String)
  | StringFlag (Name EnvVar : String) (Value : String)
  | IntFlag (Name EnvVar : String) (Value : Int)
  | BoolFlag (Name EnvVar : String)
  deriving DecidableEq, Repr

/-- The name of a flag. -/
def Flag.Name : Flag → String
  | Flag.StringSliceFlag n _ _ => n
  | Flag.StringFlag n _ _ => n
  | Flag.IntFlag n _ _ => n
  | Flag.BoolFlag n _ => n

/-- The value of `app.Flags` as set in `main` (lines 20-137). -/
def Flags : List Flag :=
  [ Flag.StringSliceFlag "actions" "PLUGIN_ACTIONS" ["validate", "plan", "apply"],
    Flag.StringFlag "ca_cert" "PLUGIN_CA_CERT" "",
    Flag.StringFlag "env_file" "PLUGIN_ENV_FILE" "",
    Flag.StringFlag "init_options" "PLUGIN_INIT_OPTIONS" "",
    Flag.StringFlag "summarize_options" "PLUGIN_SUMMARIZE_OPTIONS" "",
    Flag.StringFlag "fmt_options" "PLUGIN_FMT_OPTIONS" "",
    Flag.IntFlag "parallelism" "PLUGIN_PARALLELISM" 0,
    Flag.BoolFlag "skip_init" "PLUGIN_SKIP_INIT",
    Flag.BoolFlag "skip_cleanup" "PLUGIN_SKIP_CLEANUP",
    Flag.StringFlag "netrc.machine" "DRONE_NETRC_MACHINE" "",
    Flag.StringFlag "netrc.username" "DRONE_NETRC_USERNAME" "",
    Flag.StringFlag "netrc.password" "DRONE_NETRC_PASSWORD" "",
    Flag.StringFlag "role_arn_to_assume" "PLUGIN_ROLE_ARN_TO_ASSUME" "",
    Flag.StringFlag "root_dir" "PLUGIN_ROOT_DIR" "",
    Flag.StringFlag "secrets" "PLUGIN_SECRETS" "",
    Flag.BoolFlag "sensitive" "PLUGIN_SENSITIVE",
    Flag.StringSliceFlag "targets" "PLUGIN_TARGETS" [],
    Flag.StringFlag "tf.version" "PLUGIN_TF_VERSION" "",
    Flag.StringFlag "vars" "PLUGIN_VARS" "",
    Flag.StringSliceFlag "var_files" "PLUGIN_VAR_FILES" [],
    Flag.StringFlag "tf_data_dir" "PLUGIN_TF_DATA_DIR" "",
    Flag.BoolFlag "disable_refresh" "PLUGIN_DISABLE_REFRESH" ]

/-- The values supplied for the flags of a run, by name and kind, as parsed
by the framework; `none` is a flag left unset. -/
structure Supplied where
  strings : String → Option String
  ints : String → Option Int
  bools : String → Option Bool
  slices : String → Option (List String)

/-- Nothing supplied: every flag unset. -/
def Supplied.none : Supplied :=
  { strings := fun _ => Option.none, ints := fun _ => Option.none,
    bools := fun _ => Option.none, slices := fun _ => Option.none }

/-- A `cli.Context`: the flags of the application and the values supplied. -/
structure Context where
  flags : List Flag
  supplied : Supplied

/-- The flag of the given name, if the application has one. -/
def Context.lookup (c : Context) (name : String) : Option Flag :=
  c.flags.find? (fun f => f.Name = name)

/-- The lookup `c.Int(name)`. -/
def Context.Int (c : Context) (name : String) : Int :=
  match c.lookup name with
  | some (Flag.IntFlag _ _ dflt) => (c.supplied.ints name).getD dflt
  | _ => 0

/-- The lookup `c.Bool(name)`. -/
def Context.Bool (c : Context) (name : String) : Bool :=
  match c.lookup name with
  | some (Flag.BoolFlag _ _) => (c.supplied.bools name).getD false
  | _ => false

/-- The lookup `c.StringSlice(name)`. -/
def Context.StringSlice (c : Context) (name : String) : List String :=
  match c.lookup name with
  | some (Flag.StringSliceFlag _ _ dflt) => (c.supplied.slices name).getD dflt
  | _ => []

/-- The lookup `c.String(name)`. -/
def Context.String (c : Context) (name : String) : String :=
  match c.lookup name with
  | some (Flag.StringFlag _ _ dflt) => (c.supplied.strings name).getD dflt
  | _ => ""

/-- The context `app.Run` hands to the action: the flags of `main` with the
supplied values. -/
def appContext (a : Supplied) : Context := { flags := Flags, supplied := a }

/-! ## The aggregate handed to the Executor -/

/-- The struct `Config`, with the fields `run` sets. -/
structure Config (I F S : Type) where
  Actions : List String
  Vars : Option GoMap
  Secrets : Option GoMap
  InitOptions : I
  FmtOptions : F
  SummarizeOptions : S
  Cacert : String
  Sensitive : Bool
  RoleARN : String
  RootDir : String
  SkipInit : Bool
  SkipCleanup : Bool
  Parallelism : Int
  Targets : List String
  VarFiles : List String
  TerraformDataDir : String
  DisableRefresh : Bool

/-- The struct `Netrc`. -/
structure Netrc where
  Login : String
  Machine : String
  Password : String
  deriving DecidableEq, Repr

/-- The struct `Terraform`. -/
structure Terraform where
  Version : String
  deriving DecidableEq, Repr

/-- The struct `Plugin`. -/
structure Plugin (I F S : Type) where
  Config : Config I F S
  Netrc : Netrc
  Terraform : Terraform

/-! ## `run` -/

/-- What `run` reaches outside `main.go`, acting on the state `σ` of the
outside world (process environment, files, output): the `Info` log line,
`godotenv.Load`, `Plugin.Exec`, and the three option record types. `ε` is the
type of Go `error` values; `none` is `nil`. -/
structure Extern (σ ε I F S : Type) where
  Info : σ → σ
  Load : String → σ → Option ε × σ
  Exec : Plugin I F S → σ → Option ε × σ
  initOptions : Target I
  fmtOptions : Target F
  summarizeOptions : Target S

/-- A call `run` makes, in the order made: the log line, `godotenv.Load` with
its file name, `json.Unmarshal` with the variable it stores into and the text
given, `Exec` with its receiver. -/
inductive Call (I F S : Type) where
  | Info
  | Load (filename : String)
  | Unmarshal (target : String) (data : String)
  | Exec (plugin : Plugin I F S)

/-- How `run` ends: it returns an `error` (`none` is `nil`), or panics with
the error of a decode. -/
inductive Outcome (ε : Type) where
  | returned (err : Option ε)
  | panicked (err : JsonError)

/-- A run of `run`: how it ended, the calls it made, and the state it left
the outside world in. -/
structure Ran (σ ε I F S : Type) where
  outcome : Outcome ε
  calls : List (Call I F S)
  world : σ

variable {σ ε I F S : Type}

/-- The declaration of a nil `map[string]string` followed by the guarded
decode (`run`, lines 153-158 for `vars` and 159-164 for `secrets`): the call
made if any, the map, and the error of the decode. -/
def unmarshalMap (target : String) (data : String) :
    List (Call I F S) × Option GoMap × Option JsonError :=
  if data ≠ "" then ([Call.Unmarshal target data], Unmarshal storeMap data none)
  else ([], none, none)

/-- The function `run` of `main.go`. -/
def run (X : Extern σ ε I F S) (c : Context) (w : σ) : Ran σ ε I F S :=
  let w1 := X.Info w
  let loaded : List (Call I F S) × σ :=
    if c.String "env_file" ≠ "" then
      ([Call.Load (c.String "env_file")], (X.Load (c.String "env_file") w1).2)
    else ([], w1)
  let vars : List (Call I F S) × Option GoMap × Option JsonError :=
    unmarshalMap "vars" (c.String "vars")
  match vars.2.2 with
  | some err =>
    { outcome := Outcome.panicked err, calls := Call.Info :: (loaded.1 ++ vars.1),
      world := loaded.2 }
  | none =>
    let secrets : List (Call I F S) × Option GoMap × Option JsonError :=
      unmarshalMap "secrets" (c.String "secrets")
    match secrets.2.2 with
    | some err =>
      { outcome := Outcome.panicked err,
        calls := Call.Info :: (loaded.1 ++ vars.1 ++ secrets.1), world := loaded.2 }
    | none =>
      let initOptions := (Unmarshal X.initOptions.store (c.String "init_options")
        X.initOptions.zero).1
      let fmtOptions := (Unmarshal X.fmtOptions.store (c.String "fmt_options")
        X.fmtOptions.zero).1
      let summarizeOptions := (Unmarshal X.summarizeOptions.store
        (c.String "summarize_options") X.summarizeOptions.zero).1
      let plugin : Plugin I F S :=
        { Config :=
            { Actions := c.StringSlice "actions",
              Vars := vars.2.1,
              Secrets := secrets.2.1,
              InitOptions := initOptions,
              FmtOptions := fmtOptions,
              SummarizeOptions := summarizeOptions,
              Cacert := c.String "ca_cert",
              Sensitive := c.Bool "sensitive",
              RoleARN := c.String "role_arn_to_assume",
              RootDir := c.String "root_dir",
              SkipInit := c.Bool "skip_init",
              SkipCleanup := c.Bool "skip_cleanup",
              Parallelism := c.Int "parallelism",
              Targets := c.StringSlice "targets",
              VarFiles := c.StringSlice "var_files",
              TerraformDataDir := c.String "tf_data_dir",
              DisableRefresh := c.Bool "disable_refresh" },
          Netrc :=
            { Login := c.String "netrc.username",
              Machine := c.String "netrc.machine",
              Password := c.String "netrc.password" },
          Terraform := { Version := c.String "tf.version" } }
      let r := X.Exec plugin loaded.2
      { outcome := Outcome.returned r.1,
        calls := Call.Info :: (loaded.1 ++ vars.1 ++ secrets.1 ++
          [Call.Unmarshal "initOptions" (c.String "init_options"),
           Call.Unmarshal "fmtOptions" (c.String "fmt_options"),
           Call.Unmarshal "summarizeOptions" (c.String "summarize_options"),
           Call.Exec plugin]),
        world := r.2 }

/-! ## Vocabulary of the properties -/

/-- The receivers of the `Exec` calls among the calls made. -/
def execCalls (calls : List (Call I F S)) : List (Plugin I F S) :=
  calls.filterMap fun x =>
    match x with
    | Call.Exec p => some p
    | _ => none

/-- Whether a call is a `godotenv.Load`. -/
def Call.isLoad : Call I F S → Bool
  | Call.Load _ => true
  | _ => false

/-- Whether a call is a `json.Unmarshal` into the given variable. -/
def Call.isUnmarshalInto (target : String) : Call I F S → Bool
  | Call.Unmarshal t _ => t = target
  | _ => false

/-- The two options decoded into a `map[string]string`. -/
inductive MapOption where
  | vars
  | secrets
  deriving DecidableEq, Repr

/-- The name of the option. -/
def MapOption.name : MapOption → String
  | MapOption.vars => "vars"
  | MapOption.secrets => "secrets"

/-- The other one of the two options. -/
def MapOption.other : MapOption → MapOption
  | MapOption.vars => MapOption.secrets
  | MapOption.secrets => MapOption.vars

/-- The field of `Config` the option is decoded into. -/
def MapOption.field (o : MapOption) (cfg : Config I F S) : Option GoMap :=
  match o with
  | MapOption.vars => cfg.Vars
  | MapOption.secrets => cfg.Secrets

/-- The error `json.Unmarshal` reports for the text as a `map[string]string`. -/
def mapError (data : String) : Option JsonError :=
  (Unmarshal storeMap data none).2

/-- The value of a map option does not stop `run`: it is empty (or absent), or
it decodes without error. -/
def MapOK (data : String) : Prop := data = "" ∨ mapError data = none

instance (data : String) : Decidable (MapOK data) := by
  unfold MapOK; infer_instance

/-- Malformed as a map encoding, in the sense of the specification: a
non-empty text that is no JSON at all, or that is a JSON array. -/
def Malformed (data : String) : Prop :=
  data ≠ "" ∧ (parseJSON data = none ∨ ∃ xs, parseJSON data = some (JSON.arr xs))

/-- The JSON object whose members are the given pairs of strings, in order. -/
def strObj (ms : List (String × String)) : JSON :=
  JSON.obj (ms.map fun kv => (kv.1, JSON.str kv.2))

/-- The value of the last of the members with key `k`, if there is one. -/
def lastValue (ms : List (String × String)) (k : String) : Option String :=
  match ms with
  | [] => none
  | (k1, v1) :: rest =>
    match lastValue rest k with
    | some v => some v
    | none => if k1 = k then some v1 else none

/-- The map after the assignments `m[k] = v` for the pairs of `ms`, in order. -/
def setAll (m : GoMap) (ms : List (String × String)) : GoMap :=
  match ms with
  | [] => m
  | kv :: rest => setAll (GoMap.set m kv.1 kv.2) rest

/-- The world `Exec` is called in: after the log line and the load of the
env-file, if one is named. -/
def worldAtExec (X : Extern σ ε I F S) (c : Context) (w : σ) : σ :=
  if c.String "env_file" ≠ "" then (X.Load (c.String "env_file") (X.Info w)).2 else X.Info w

/-- The map a map option is decoded into. -/
def mapValue (data : String) : Option GoMap :=
  if data ≠ "" then (Unmarshal storeMap data none).1 else none

/-- The decode call made for a map option, if any. -/
def mapCalls (target data : String) : List (Call I F S) :=
  if data ≠ "" then [Call.Unmarshal target data] else []

/-- The load call made, if any. -/
def loadCalls (c : Context) : List (Call I F S) :=
  if c.String "env_file" ≠ "" then [Call.Load (c.String "env_file")] else []

/-- The aggregate `run` assembles when both map options decode. -/
def aggregate (X : Extern σ ε I F S) (c : Context) : Plugin I F S :=
  { Config :=
      { Actions := c.StringSlice "actions",
        Vars := mapValue (c.String "vars"),
        Secrets := mapValue (c.String "secrets"),
        InitOptions := (Unmarshal X.initOptions.store (c.String "init_options")
          X.initOptions.zero).1,
        FmtOptions := (Unmarshal X.fmtOptions.store (c.String "fmt_options")
          X.fmtOptions.zero).1,
        SummarizeOptions := (Unmarshal X.summarizeOptions.store
          (c.String "summarize_options") X.summarizeOptions.zero).1,
        Cacert := c.String "ca_cert",
        Sensitive := c.Bool "sensitive",
        RoleARN := c.String "role_arn_to_assume",
        RootDir := c.String "root_dir",
        SkipInit := c.Bool "skip_init",
        SkipCleanup := c.Bool "skip_cleanup",
        Parallelism := c.Int "parallelism",
        Targets := c.StringSlice "targets",
        VarFiles := c.StringSlice "var_files",
        TerraformDataDir := c.String "tf_data_dir",
        DisableRefresh := c.Bool "disable_refresh" },
    Netrc :=
      { Login := c.String "netrc.username",
        Machine := c.String "netrc.machine",
        Password := c.String "netrc.password" },
    Terraform := { Version := c.String "tf.version" } }

/-- A free-form option record for the examples: the members of the object
last stored, none for the zero value. -/
def sampleTarget : Target (List (String × String)) :=
  { zero := [],
    store := fun j v =>
      match j with
      | JSON.obj ms => ((storeMembers ms v none).1, (storeMembers ms v none).2)
      | JSON.null => (v, none)
      | _ => (v, some (JsonError.UnmarshalTypeError "value" "struct")) }

/-- An outside world for the examples: the state is the list of what was
done, newest first; loading an env-file fails exactly for the file
`missing.env`, and `Exec` fails exactly when the action list is empty. -/
def sampleExtern :
    Extern (List String) String (List (String × String)) (List (String × String))
      (List (String × String)) :=
  { Info := fun w => "info" :: w,
    Load := fun f w =>
      if f = "missing.env" then (some "open missing.env: no such file or directory", w)
      else (none, ("load " ++ f) :: w),
    Exec := fun p w =>
      (if p.Config.Actions = [] then some "no actions" else none, "exec" :: w),
    initOptions := sampleTarget,
    fmtOptions := sampleTarget,
    summarizeOptions := sampleTarget }

/-- Supplied values for the examples: the given string options, nothing else. -/
def suppliedStrings (kvs : List (String × String)) : Supplied :=
  { Supplied.none with strings := fun n => GoMap.get kvs n }

/-- Supplied values for the examples, of all four kinds. -/
def Supplied.ofLists (strings : List (String × String)) (ints : List (String × Int))
    (bools : List (String × Bool)) (slices : List (String × List String)) : Supplied :=
  { strings := fun n => strings.lookup n, ints := fun n => ints.lookup n,
    bools := fun n => bools.lookup n, slices := fun n => slices.lookup n }

/-- The scenario of the specification with both maps: `PLUGIN_VARS` is
`{"region":"us-east-1"}`, `PLUGIN_SECRETS` is `{"token":"abc"}` and
`PLUGIN_ACTIONS` is `plan`. -/
def scenarioMaps : Context :=
  appContext (Supplied.ofLists
    [("vars", "\x7b\"region\":\"us-east-1\"\x7d"), ("secrets", "\x7b\"token\":\"abc\"\x7d")]
    [] [] [("actions", ["plan"])])

/-- The scenario of the specification with scalars: `PLUGIN_SKIP_INIT` is
`true` and `PLUGIN_PARALLELISM` is `4`. -/
def scenarioScalars : Supplied :=
  Supplied.ofLists [] [("parallelism", 4)] [("skip_init", true)] []

/-- A load that succeeds, for the examples: it reports no error and changes
the world. -/
def sampleLoadOk (f : String) (w : List String) : Option String × List String :=
  (none, ("load " ++ f) :: w)

/-- A run with an env-file the sample world fails to load, and `vars` set. -/
def scenarioMissingEnvFile : Context :=
  appContext (suppliedStrings [("env_file", "missing.env"), ("vars", "\x7b\"a\":\"b\"\x7d")])

/-- A run with an env-file named and a malformed `vars`. -/
def scenarioEnvFileBadVars : Context :=
  appContext (suppliedStrings [("env_file", "ci.env"), ("vars", "\x7bbad")])

/-- An outside world for the examples in which `Exec` reads the world: as
`sampleExtern`, but `Exec` fails unless the env-file `missing.env` has been
loaded, as an Executor does that needs a credential the file provides. -/
def sampleExternReading :
    Extern (List String) String (List (String × String)) (List (String × String))
      (List (String × String)) :=
  { sampleExtern with
    Exec := fun _ w =>
      (if "load missing.env" ∈ w then none else some "missing credentials", "exec" :: w) }

/-! ## Maps -/

theorem GoMap.get_set (m : GoMap) (k v k2 : String) :
    GoMap.get (GoMap.set m k v) k2 = if k = k2 then some v else GoMap.get m k2 := by
  induction m with
  | nil => simp [GoMap.set, GoMap.get]
  | cons hd tl ih =>
    obtain ⟨k1, v1⟩ := hd
    by_cases h1 : k1 = k
    · subst h1
      by_cases h2 : k1 = k2 <;> simp [GoMap.set, GoMap.get, h2]
    · by_cases h2 : k1 = k2
      · subst h2
        have h3 : ¬ k = k1 := fun h => h1 h.symm
        simp [GoMap.set, GoMap.get, h1, h3]
      · simp [GoMap.set, GoMap.get, h1, h2, ih]

theorem get_setAll (ms : List (String × String)) (m : GoMap) (k : String) :
    GoMap.get (setAll m ms) k =
      match lastValue ms k with
      | some v => some v
      | none => GoMap.get m k := by
  induction ms generalizing m with
  | nil => simp [setAll, lastValue]
  | cons hd tl ih =>
    obtain ⟨k1, v1⟩ := hd
    simp only [setAll, lastValue]
    rw [ih]
    cases h : lastValue tl k with
    | some v => simp
    | none =>
      simp only [GoMap.get_set]
      by_cases h1 : k1 = k <;> simp [h1]

theorem GoMap.set_of_not_mem (m : GoMap) (k v : String) (h : k ∉ m.map Prod.fst) :
    GoMap.set m k v = m ++ [(k, v)] := by
  induction m with
  | nil => simp [GoMap.set]
  | cons hd tl ih =>
    obtain ⟨k1, v1⟩ := hd
    simp only [List.map_cons, List.mem_cons, not_or] at h
    have h1 : ¬ k1 = k := fun e => h.1 e.symm
    simp [GoMap.set, h1, ih h.2]

theorem setAll_of_nodup (ms : List (String × String)) (m : GoMap)
    (h : ((m ++ ms).map Prod.fst).Nodup) : setAll m ms = m ++ ms := by
  induction ms generalizing m with
  | nil => simp [setAll]
  | cons hd tl ih =>
    obtain ⟨k1, v1⟩ := hd
    have hk : k1 ∉ m.map Prod.fst := by
      intro hm
      rw [List.map_append, List.nodup_append] at h
      exact h.2.2 hm (by simp)
    simp only [setAll]
    rw [GoMap.set_of_not_mem m k1 v1 hk, ih]
    · simp
    · simpa using h

theorem GoMap.get_eq_some_iff (m : GoMap) (h : (m.map Prod.fst).Nodup) (k v : String) :
    GoMap.get m k = some v ↔ (k, v) ∈ m := by
  induction m with
  | nil => simp [GoMap.get]
  | cons hd tl ih =>
    obtain ⟨k1, v1⟩ := hd
    simp only [List.map_cons, List.nodup_cons] at h
    by_cases h1 : k1 = k
    · subst h1
      simp only [GoMap.get, if_true, Option.some.injEq, List.mem_cons, Prod.mk.injEq, true_and]
      constructor
      · intro e; exact Or.inl e.symm
      · rintro (e | hm)
        · exact e.symm
        · exact absurd (List.mem_map_of_mem Prod.fst hm) h.1
    · have h2 : ¬ k = k1 := fun e => h1 e.symm
      simp [GoMap.get, h1, h2, ih h.2]

theorem GoMap.deepEqual_of_perm (m1 m2 : GoMap) (hp : m1.Perm m2)
    (h : (m1.map Prod.fst).Nodup) : GoMap.DeepEqual (some m1) (some m2) := by
  have h2 : (m2.map Prod.fst).Nodup := (hp.map Prod.fst).nodup_iff.1 h
  refine ⟨hp.length_eq, fun k => ?_⟩
  apply Option.ext
  intro v
  simp only [Option.mem_def]
  rw [GoMap.get_eq_some_iff m1 h, GoMap.get_eq_some_iff m2 h2]
  exact hp.mem_iff

theorem storeMembers_strObj (ms : List (String × String)) (m : GoMap) :
    storeMembers (ms.map fun kv => (kv.1, JSON.str kv.2)) m none = (setAll m ms, none) := by
  induction ms generalizing m with
  | nil => simp [storeMembers, setAll]
  | cons hd tl ih =>
    simp only [List.map_cons, storeMembers, storeString, setAll]
    exact ih _

theorem parseJSON_empty : parseJSON "" = none := rfl

theorem ne_empty_of_parseJSON (data : String) (j : JSON) (h : parseJSON data = some j) :
    data ≠ "" := by
  intro e
  rw [e, parseJSON_empty] at h
  exact Option.noConfusion h

theorem mapError_of_strObj (data : String) (ms : List (String × String))
    (h : parseJSON data = some (strObj ms)) : mapError data = none := by
  simp [mapError, Unmarshal, h, strObj, storeMap, storeMembers_strObj]

theorem mapValue_of_strObj (data : String) (ms : List (String × String))
    (h : parseJSON data = some (strObj ms)) : mapValue data = some (setAll [] ms) := by
  have hne := ne_empty_of_parseJSON data _ h
  simp [mapValue, hne, Unmarshal, h, strObj, storeMap, storeMembers_strObj]

/-! ## How `run` proceeds -/

theorem unmarshalMap_calls (I F S : Type) (target data : String) :
    (unmarshalMap target data : List (Call I F S) × Option GoMap × Option JsonError).1
      = mapCalls target data := by
  unfold unmarshalMap mapCalls
  by_cases h : data = "" <;> simp [h]

theorem unmarshalMap_value (I F S : Type) (target data : String) :
    (unmarshalMap target data : List (Call I F S) × Option GoMap × Option JsonError).2.1
      = mapValue data := by
  unfold unmarshalMap mapValue
  by_cases h : data = "" <;> simp [h]

theorem unmarshalMap_error (I F S : Type) (target data : String) :
    (unmarshalMap target data : List (Call I F S) × Option GoMap × Option JsonError).2.2
      = if data = "" then none else mapError data := by
  unfold unmarshalMap mapError
  by_cases h : data = "" <;> simp [h]

theorem unmarshalMap_error_of_ok (I F S : Type) (target data : String) (h : MapOK data) :
    (unmarshalMap target data : List (Call I F S) × Option GoMap × Option JsonError).2.2
      = none := by
  rw [unmarshalMap_error]
  rcases h with h | h <;> simp [h]

theorem unmarshalMap_error_of_bad (I F S : Type) (target data : String) (e : JsonError)
    (hne : data ≠ "") (h : mapError data = some e) :
    (unmarshalMap target data : List (Call I F S) × Option GoMap × Option JsonError).2.2
      = some e := by
  rw [unmarshalMap_error]
  simp [hne, h]

/-- With both map options fine, `run` makes its calls up to `Exec` and
returns what `Exec` returns. -/
theorem run_of_ok (X : Extern σ ε I F S) (c : Context) (w : σ)
    (hv : MapOK (c.String "vars")) (hs : MapOK (c.String "secrets")) :
    run X c w =
      { outcome := Outcome.returned (X.Exec (aggregate X c) (worldAtExec X c w)).1,
        calls := Call.Info :: (loadCalls c ++ mapCalls "vars" (c.String "vars") ++
          mapCalls "secrets" (c.String "secrets") ++
          [Call.Unmarshal "initOptions" (c.String "init_options"),
           Call.Unmarshal "fmtOptions" (c.String "fmt_options"),
           Call.Unmarshal "summarizeOptions" (c.String "summarize_options"),
           Call.Exec (aggregate X c)]),
        world := (X.Exec (aggregate X c) (worldAtExec X c w)).2 } := by
  have h1 := unmarshalMap_error_of_ok I F S "vars" _ hv
  have h2 := unmarshalMap_error_of_ok I F S "secrets" _ hs
  simp only [run, h1, h2, unmarshalMap_calls, unmarshalMap_value]
  unfold aggregate worldAtExec loadCalls
  by_cases h : c.String "env_file" = "" <;> simp [h]

/-- A failing decode of `vars` stops `run` there. -/
theorem run_of_vars_error (X : Extern σ ε I F S) (c : Context) (w : σ) (e : JsonError)
    (hne : c.String "vars" ≠ "") (h : mapError (c.String "vars") = some e) :
    run X c w =
      { outcome := Outcome.panicked e,
        calls := Call.Info :: (loadCalls c ++ [Call.Unmarshal "vars" (c.String "vars")]),
        world := worldAtExec X c w } := by
  have h1 := unmarshalMap_error_of_bad I F S "vars" _ e hne h
  simp only [run, h1, unmarshalMap_calls]
  unfold worldAtExec loadCalls mapCalls
  by_cases h : c.String "env_file" = "" <;> simp [h, hne]

/-- A failing decode of `secrets`, after `vars` went through, stops `run`
there. -/
theorem run_of_secrets_error (X : Extern σ ε I F S) (c : Context) (w : σ) (e : JsonError)
    (hv : MapOK (c.String "vars"))
    (hne : c.String "secrets" ≠ "") (h : mapError (c.String "secrets") = some e) :
    run X c w =
      { outcome := Outcome.panicked e,
        calls := Call.Info :: (loadCalls c ++ mapCalls "vars" (c.String "vars") ++
          [Call.Unmarshal "secrets" (c.String "secrets")]),
        world := worldAtExec X c w } := by
  have h1 := unmarshalMap_error_of_ok I F S "vars" _ hv
  have h2 := unmarshalMap_error_of_bad I F S "secrets" _ e hne h
  simp only [run, h1, h2, unmarshalMap_calls]
  unfold worldAtExec loadCalls
  by_cases h : c.String "env_file" = "" <;> simp [h, hne, mapCalls]

theorem execCalls_append (xs ys : List (Call I F S)) :
    execCalls (xs ++ ys) = execCalls xs ++ execCalls ys := by
  simp [execCalls, List.filterMap_append]

theorem execCalls_loadCalls (I F S : Type) (c : Context) :
    execCalls (loadCalls c : List (Call I F S)) = [] := by
  unfold loadCalls execCalls
  by_cases h : c.String "env_file" = "" <;> simp [h]

theorem execCalls_mapCalls (I F S : Type) (target data : String) :
    execCalls (mapCalls target data : List (Call I F S)) = [] := by
  unfold mapCalls execCalls
  by_cases h : data = "" <;> simp [h]

/-- With both map options fine, `Exec` is called once, on the aggregate. -/
theorem execCalls_run_of_ok (X : Extern σ ε I F S) (c : Context) (w : σ)
    (hv : MapOK (c.String "vars")) (hs : MapOK (c.String "secrets")) :
    execCalls (run X c w).calls = [aggregate X c] := by
  rw [run_of_ok X c w hv hs]
  show execCalls (Call.Info :: _) = _
  rw [← List.singleton_append, execCalls_append, execCalls_append, execCalls_append,
    execCalls_append, execCalls_loadCalls, execCalls_mapCalls, execCalls_mapCalls]
  simp [execCalls]

/-! ## The two map options -/

theorem mapError_of_malformed (data : String) (h : Malformed data) :
    ∃ e, mapError data = some e := by
  rcases h with ⟨_, h | ⟨xs, h⟩⟩
  · exact ⟨JsonError.SyntaxError, by simp [mapError, Unmarshal, h]⟩
  · exact ⟨JsonError.UnmarshalTypeError "array" "map[string]string",
      by simp [mapError, Unmarshal, h, storeMap]⟩

theorem not_mapOK (data : String) (h : ¬ MapOK data) :
    data ≠ "" ∧ ∃ e, mapError data = some e := by
  unfold MapOK at h
  push_neg at h
  refine ⟨h.1, ?_⟩
  cases he : mapError data with
  | none => exact absurd he h.2
  | some e => exact ⟨e, rfl⟩

theorem execCalls_of_vars_error (X : Extern σ ε I F S) (c : Context) (w : σ) (e : JsonError)
    (hne : c.String "vars" ≠ "") (h : mapError (c.String "vars") = some e) :
    execCalls (run X c w).calls = [] := by
  rw [run_of_vars_error X c w e hne h]
  show execCalls (Call.Info :: _) = _
  rw [← List.singleton_append, execCalls_append, execCalls_append, execCalls_loadCalls]
  simp [execCalls]

theorem execCalls_of_secrets_error (X : Extern σ ε I F S) (c : Context) (w : σ)
    (e : JsonError) (hv : MapOK (c.String "vars"))
    (hne : c.String "secrets" ≠ "") (h : mapError (c.String "secrets") = some e) :
    execCalls (run X c w).calls = [] := by
  rw [run_of_secrets_error X c w e hv hne h]
  show execCalls (Call.Info :: _) = _
  rw [← List.singleton_append, execCalls_append, execCalls_append, execCalls_append,
    execCalls_loadCalls, execCalls_mapCalls]
  simp [execCalls]

theorem outcome_run_of_ok (X : Extern σ ε I F S) (c : Context) (w : σ)
    (hv : MapOK (c.String "vars")) (hs : MapOK (c.String "secrets")) :
    (run X c w).outcome
      = Outcome.returned (X.Exec (aggregate X c) (worldAtExec X c w)).1 := by
  rw [run_of_ok X c w hv hs]

theorem world_run_of_ok (X : Extern σ ε I F S) (c : Context) (w : σ)
    (hv : MapOK (c.String "vars")) (hs : MapOK (c.String "secrets")) :
    (run X c w).world = (X.Exec (aggregate X c) (worldAtExec X c w)).2 := by
  rw [run_of_ok X c w hv hs]

/-- C1: when `vars` or `secrets` is a non-empty text that is no JSON at all or
is a JSON array, `run` panics with an error reported by the decode of one of
the two options (the error of `vars` when `vars` is the malformed one) and
makes no call of `Exec`. -/
theorem malformed_map_option_aborts (X : Extern σ ε I F S) (c : Context) (w : σ)
    (o : MapOption) (h : Malformed (c.String o.name)) :
    (∃ e, (run X c w).outcome = Outcome.panicked e ∧
      (mapError (c.String "vars") = some e ∨ mapError (c.String "secrets") = some e) ∧
      (o = MapOption.vars → mapError (c.String "vars") = some e)) ∧
    execCalls (run X c w).calls = [] := by
  obtain ⟨e, he⟩ := mapError_of_malformed _ h
  have hne := h.1
  cases o with
  | vars =>
    refine ⟨⟨e, ?_, Or.inl he, fun _ => he⟩, execCalls_of_vars_error X c w e hne he⟩
    rw [run_of_vars_error X c w e hne he]
  | secrets =>
    by_cases hv : MapOK (c.String "vars")
    · refine ⟨⟨e, ?_, Or.inr he, fun ho => MapOption.noConfusion ho⟩,
        execCalls_of_secrets_error X c w e hv hne he⟩
      rw [run_of_secrets_error X c w e hv hne he]
    · obtain ⟨hne1, e1, he1⟩ := not_mapOK _ hv
      refine ⟨⟨e1, ?_, Or.inl he1, fun ho => MapOption.noConfusion ho⟩,
        execCalls_of_vars_error X c w e1 hne1 he1⟩
      rw [run_of_vars_error X c w e1 hne1 he1]

/-- C1, at `vars` set to `{not json` and, in another run, `secrets` set to
`[]`. -/
theorem malformed_map_option_aborts_witness :
    (Malformed ((appContext (suppliedStrings [("vars", "\x7bnot json")])).String
        MapOption.vars.name) ∧
      ((∃ e, (run sampleExtern (appContext (suppliedStrings [("vars", "\x7bnot json")]))
          []).outcome = Outcome.panicked e ∧
        (mapError ((appContext (suppliedStrings [("vars", "\x7bnot json")])).String "vars")
            = some e ∨
          mapError ((appContext (suppliedStrings [("vars", "\x7bnot json")])).String "secrets")
            = some e) ∧
        (MapOption.vars = MapOption.vars →
          mapError ((appContext (suppliedStrings [("vars", "\x7bnot json")])).String "vars")
            = some e)) ∧
      execCalls (run sampleExtern (appContext (suppliedStrings [("vars", "\x7bnot json")]))
        []).calls = [])) ∧
    (run sampleExtern (appContext (suppliedStrings [("vars", "\x7bnot json")])) []).outcome
      = Outcome.panicked JsonError.SyntaxError ∧
    (run sampleExtern (appContext (suppliedStrings [("secrets", "[]")])) []).outcome
      = Outcome.panicked (JsonError.UnmarshalTypeError "array" "map[string]string") :=
  ⟨⟨⟨by decide, Or.inl rfl⟩,
    malformed_map_option_aborts sampleExtern
      (appContext (suppliedStrings [("vars", "\x7bnot json")])) [] MapOption.vars
      ⟨by decide, Or.inl rfl⟩⟩, rfl, rfl⟩

/-- C2: with `vars` and `secrets` fine, `run` does not stop: `Exec` is called
and `run` returns; each of `init_options`, `fmt_options`, `summarize_options`
that is not valid JSON leaves its record at the zero value in the aggregate
handed to `Exec`; the empty text is not valid JSON. -/
theorem invalid_option_record_is_zero (X : Extern σ ε I F S) (c : Context) (w : σ)
    (hv : MapOK (c.String "vars")) (hs : MapOK (c.String "secrets")) :
    ∃ p r, execCalls (run X c w).calls = [p] ∧ (run X c w).outcome = Outcome.returned r ∧
      (parseJSON (c.String "init_options") = none →
        p.Config.InitOptions = X.initOptions.zero) ∧
      (parseJSON (c.String "fmt_options") = none →
        p.Config.FmtOptions = X.fmtOptions.zero) ∧
      (parseJSON (c.String "summarize_options") = none →
        p.Config.SummarizeOptions = X.summarizeOptions.zero) ∧
      parseJSON "" = none := by
  refine ⟨aggregate X c, _, execCalls_run_of_ok X c w hv hs,
    outcome_run_of_ok X c w hv hs, ?_, ?_, ?_, rfl⟩
  · intro h; simp [aggregate, Unmarshal, h]
  · intro h; simp [aggregate, Unmarshal, h]
  · intro h; simp [aggregate, Unmarshal, h]

/-- C2, at `init_options` set to `{bad`, `fmt_options` left unset (the empty
text) and `summarize_options` set to `[1,`. -/
theorem invalid_option_record_is_zero_witness :
    MapOK ((appContext (suppliedStrings
      [("init_options", "\x7bbad"), ("summarize_options", "[1,")])).String "vars") ∧
    MapOK ((appContext (suppliedStrings
      [("init_options", "\x7bbad"), ("summarize_options", "[1,")])).String "secrets") ∧
    parseJSON ((appContext (suppliedStrings
      [("init_options", "\x7bbad"), ("summarize_options", "[1,")])).String "init_options")
      = none ∧
    parseJSON ((appContext (suppliedStrings
      [("init_options", "\x7bbad"), ("summarize_options", "[1,")])).String "fmt_options")
      = none ∧
    parseJSON ((appContext (suppliedStrings
      [("init_options", "\x7bbad"), ("summarize_options", "[1,")])).String "summarize_options")
      = none ∧
    ∃ p r, execCalls (run sampleExtern (appContext (suppliedStrings
        [("init_options", "\x7bbad"), ("summarize_options", "[1,")])) []).calls = [p] ∧
      (run sampleExtern (appContext (suppliedStrings
        [("init_options", "\x7bbad"), ("summarize_options", "[1,")])) []).outcome
        = Outcome.returned r ∧
      (parseJSON ((appContext (suppliedStrings
          [("init_options", "\x7bbad"), ("summarize_options", "[1,")])).String "init_options")
          = none → p.Config.InitOptions = sampleExtern.initOptions.zero) ∧
      (parseJSON ((appContext (suppliedStrings
          [("init_options", "\x7bbad"), ("summarize_options", "[1,")])).String "fmt_options")
          = none → p.Config.FmtOptions = sampleExtern.fmtOptions.zero) ∧
      (parseJSON ((appContext (suppliedStrings
          [("init_options", "\x7bbad"), ("summarize_options", "[1,")])).String
          "summarize_options") = none →
        p.Config.SummarizeOptions = sampleExtern.summarizeOptions.zero) ∧
      parseJSON "" = none :=
  ⟨by decide, by decide, rfl, rfl, rfl,
    invalid_option_record_is_zero sampleExtern (appContext (suppliedStrings
      [("init_options", "\x7bbad"), ("summarize_options", "[1,")])) [] (by decide) (by decide)⟩

theorem mapOK_both (c : Context) (o : MapOption) (h1 : MapOK (c.String o.name))
    (h2 : MapOK (c.String o.other.name)) :
    MapOK (c.String "vars") ∧ MapOK (c.String "secrets") := by
  cases o with
  | vars => exact ⟨h1, h2⟩
  | secrets => exact ⟨h2, h1⟩

theorem field_aggregate (X : Extern σ ε I F S) (c : Context) (o : MapOption) :
    o.field (aggregate X c).Config = mapValue (c.String o.name) := by
  cases o <;> rfl

theorem nodup_keys_of_perm (ms ms2 : List (String × String)) (hp : ms.Perm ms2)
    (h : (ms.map Prod.fst).Nodup) : (ms2.map Prod.fst).Nodup :=
  (hp.map Prod.fst).nodup_iff.1 h

/-- C3, as amended: when `vars` (or `secrets`) is a JSON object whose member
values are all strings, and the other map option is fine, `run` does not stop
and the field of the aggregate is a non-nil map that binds each key to the
value of the last member with that key and binds nothing else; when no key is
repeated it has exactly the members of the object as its entries, and a
second run given the same members in another order gets a deeply equal
map. -/
theorem string_object_map_option (X : Extern σ ε I F S) (c : Context) (w : σ)
    (o : MapOption) (ms : List (String × String))
    (h : parseJSON (c.String o.name) = some (strObj ms))
    (ho : MapOK (c.String o.other.name)) :
    ∃ p r m, execCalls (run X c w).calls = [p] ∧
      (run X c w).outcome = Outcome.returned r ∧
      o.field p.Config = some m ∧
      (∀ k, GoMap.get m k = lastValue ms k) ∧
      ((ms.map Prod.fst).Nodup →
        m.length = ms.length ∧ ∀ k v, GoMap.get m k = some v ↔ (k, v) ∈ ms) ∧
      (∀ (c2 : Context) (w2 : σ) (ms2 : List (String × String)),
        parseJSON (c2.String o.name) = some (strObj ms2) →
        MapOK (c2.String o.other.name) →
        (ms.map Prod.fst).Nodup → ms.Perm ms2 →
        ∃ p2, execCalls (run X c2 w2).calls = [p2] ∧
          GoMap.DeepEqual (o.field p.Config) (o.field p2.Config)) := by
  obtain ⟨hv, hs⟩ := mapOK_both c o (Or.inr (mapError_of_strObj _ ms h)) ho
  refine ⟨aggregate X c, _, setAll [] ms, execCalls_run_of_ok X c w hv hs,
    outcome_run_of_ok X c w hv hs, ?_, ?_, ?_, ?_⟩
  · rw [field_aggregate, mapValue_of_strObj _ ms h]
  · intro k
    rw [get_setAll]
    cases lastValue ms k <;> simp [GoMap.get]
  · intro hn
    have e : setAll [] ms = ms := by
      rw [setAll_of_nodup ms [] (by simpa using hn)]
      simp
    rw [e]
    exact ⟨rfl, fun k v => GoMap.get_eq_some_iff ms hn k v⟩
  · intro c2 w2 ms2 h2 ho2 hn hp
    obtain ⟨hv2, hs2⟩ := mapOK_both c2 o (Or.inr (mapError_of_strObj _ ms2 h2)) ho2
    refine ⟨aggregate X c2, execCalls_run_of_ok X c2 w2 hv2 hs2, ?_⟩
    have hn2 := nodup_keys_of_perm ms ms2 hp hn
    have e : setAll [] ms = ms := by
      rw [setAll_of_nodup ms [] (by simpa using hn)]
      simp
    have e2 : setAll [] ms2 = ms2 := by
      rw [setAll_of_nodup ms2 [] (by simpa using hn2)]
      simp
    rw [field_aggregate, field_aggregate, mapValue_of_strObj _ ms h,
      mapValue_of_strObj _ ms2 h2, e, e2]
    exact GoMap.deepEqual_of_perm ms ms2 hp hn

/-- C3, at `vars` set to `{"region":"us-east-1"}`, `secrets` set to
`{"token":"abc"}` and `actions` set to `plan`: the scenario of the
specification, with the aggregate's fields as it states them. -/
theorem string_object_map_option_witness :
    (parseJSON (scenarioMaps.String MapOption.vars.name)
        = some (strObj [("region", "us-east-1")]) ∧
      MapOK (scenarioMaps.String MapOption.vars.other.name) ∧
      ∃ p r m, execCalls (run sampleExtern scenarioMaps []).calls = [p] ∧
        (run sampleExtern scenarioMaps []).outcome = Outcome.returned r ∧
        MapOption.vars.field p.Config = some m ∧
        (∀ k, GoMap.get m k = lastValue [("region", "us-east-1")] k) ∧
        (([("region", "us-east-1")].map Prod.fst).Nodup →
          m.length = [("region", "us-east-1")].length ∧
            ∀ k v, GoMap.get m k = some v ↔ (k, v) ∈ [("region", "us-east-1")]) ∧
        (∀ (c2 : Context) (w2 : List String) (ms2 : List (String × String)),
          parseJSON (c2.String MapOption.vars.name) = some (strObj ms2) →
          MapOK (c2.String MapOption.vars.other.name) →
          ([("region", "us-east-1")].map Prod.fst).Nodup →
          [("region", "us-east-1")].Perm ms2 →
          ∃ p2, execCalls (run sampleExtern c2 w2).calls = [p2] ∧
            GoMap.DeepEqual (MapOption.vars.field p.Config)
              (MapOption.vars.field p2.Config))) ∧
    (execCalls (run sampleExtern scenarioMaps []).calls).map
        (fun p => (p.Config.Vars, p.Config.Secrets, p.Config.Actions))
      = [(some [("region", "us-east-1")], some [("token", "abc")], ["plan"])] :=
  ⟨⟨rfl, by decide,
    string_object_map_option sampleExtern scenarioMaps [] MapOption.vars
      [("region", "us-east-1")] rfl (by decide)⟩, rfl⟩

/-- C3 as stated fails: `{"n":1}` is a well-formed JSON object, and with it
as `vars` the run panics on the number and never calls `Exec`; with a key
repeated the first member's pair is missing from the map, and the same two
members in the other order give a map that is not deeply equal. -/
theorem object_map_option_counterexample :
    parseJSON "\x7b\"n\":1\x7d" = some (JSON.obj [("n", JSON.num "1")]) ∧
    (run sampleExtern (appContext (suppliedStrings [("vars", "\x7b\"n\":1\x7d")])) []).outcome
      = Outcome.panicked (JsonError.UnmarshalTypeError "number" "string") ∧
    execCalls (run sampleExtern (appContext (suppliedStrings [("vars", "\x7b\"n\":1\x7d")]))
      []).calls = [] ∧
    parseJSON "\x7b\"a\":\"1\",\"a\":\"2\"\x7d" = some (strObj [("a", "1"), ("a", "2")]) ∧
    (execCalls (run sampleExtern
        (appContext (suppliedStrings [("vars", "\x7b\"a\":\"1\",\"a\":\"2\"\x7d")])) []).calls).map
      (fun p => p.Config.Vars) = [some [("a", "2")]] ∧
    parseJSON "\x7b\"a\":\"2\",\"a\":\"1\"\x7d" = some (strObj [("a", "2"), ("a", "1")]) ∧
    (execCalls (run sampleExtern
        (appContext (suppliedStrings [("vars", "\x7b\"a\":\"2\",\"a\":\"1\"\x7d")])) []).calls).map
      (fun p => p.Config.Vars) = [some [("a", "1")]] ∧
    ¬ GoMap.DeepEqual (some [("a", "2")]) (some [("a", "1")]) := by
  refine ⟨rfl, rfl, rfl, rfl, rfl, rfl, rfl, ?_⟩
  intro h
  have h1 := h.2 "a"
  simp [GoMap.get] at h1

theorem mapValue_empty : mapValue "" = none := rfl

theorem mapCalls_empty (I F S : Type) (target : String) :
    (mapCalls target "" : List (Call I F S)) = [] := rfl

theorem isLoad_mapCalls (I F S : Type) (target data : String) :
    ∀ x ∈ (mapCalls target data : List (Call I F S)), x.isLoad = false := by
  unfold mapCalls
  by_cases h : data = "" <;> simp [h, Call.isLoad]

theorem isUnmarshalInto_loadCalls (I F S : Type) (c : Context) (target : String) :
    ∀ x ∈ (loadCalls c : List (Call I F S)), x.isUnmarshalInto target = false := by
  unfold loadCalls
  by_cases h : c.String "env_file" = "" <;> simp [h, Call.isUnmarshalInto]

theorem isUnmarshalInto_mapCalls (I F S : Type) (t target data : String) (h : t ≠ target) :
    ∀ x ∈ (mapCalls t data : List (Call I F S)), x.isUnmarshalInto target = false := by
  unfold mapCalls
  by_cases hd : data = "" <;> simp [hd, Call.isUnmarshalInto, h]

/-- The calls of `run`, whatever its end: the log line, the load if any, then
calls that are no load. -/
theorem calls_run (X : Extern σ ε I F S) (c : Context) (w : σ) :
    ∃ rest, (run X c w).calls = Call.Info :: (loadCalls c ++ rest) ∧
      ∀ x ∈ rest, x.isLoad = false := by
  by_cases hv : MapOK (c.String "vars")
  · by_cases hs : MapOK (c.String "secrets")
    · rw [run_of_ok X c w hv hs]
      refine ⟨mapCalls "vars" (c.String "vars") ++ (mapCalls "secrets" (c.String "secrets") ++
        [Call.Unmarshal "initOptions" (c.String "init_options"),
         Call.Unmarshal "fmtOptions" (c.String "fmt_options"),
         Call.Unmarshal "summarizeOptions" (c.String "summarize_options"),
         Call.Exec (aggregate X c)]), by simp only [List.append_assoc], ?_⟩
      intro x hx
      simp only [List.mem_append, List.mem_cons, List.mem_singleton, List.not_mem_nil,
        or_false] at hx
      rcases hx with hx | hx | hx
      · exact isLoad_mapCalls I F S _ _ x hx
      · exact isLoad_mapCalls I F S _ _ x hx
      · rcases hx with hx | hx | hx | hx <;> subst hx <;> rfl
    · obtain ⟨hne, e, he⟩ := not_mapOK _ hs
      rw [run_of_secrets_error X c w e hv hne he]
      refine ⟨mapCalls "vars" (c.String "vars") ++
        [Call.Unmarshal "secrets" (c.String "secrets")], by simp only [List.append_assoc], ?_⟩
      intro x hx
      simp only [List.mem_append, List.mem_singleton] at hx
      rcases hx with hx | hx
      · exact isLoad_mapCalls I F S _ _ x hx
      · subst hx; rfl
  · obtain ⟨hne, e, he⟩ := not_mapOK _ hv
    rw [run_of_vars_error X c w e hne he]
    refine ⟨_, rfl, ?_⟩
    intro x hx
    simp only [List.mem_singleton] at hx
    subst hx; rfl

/-- C9: the calls of `run` are the log line, then the load of the env-file
exactly when `env_file` is not empty, then the rest; no call of the rest is a
load, and every decode and every call of `Exec` the run makes is in the rest.
So a named env-file is loaded once, before every decode and before `Exec`,
also in a run that then stops on a malformed `vars`; with `env_file` empty no
load is made. -/
theorem env_file_loaded_once_first (X : Extern σ ε I F S) (c : Context) (w : σ) :
    ∃ rest, (run X c w).calls = Call.Info ::
        ((if c.String "env_file" ≠ "" then [Call.Load (c.String "env_file")] else []) ++ rest) ∧
      (∀ x ∈ rest, x.isLoad = false) ∧
      (∀ x ∈ (run X c w).calls,
        ((∃ t d, x = Call.Unmarshal t d) ∨ ∃ p, x = Call.Exec p) → x ∈ rest) := by
  obtain ⟨rest, hcalls, hrest⟩ := calls_run X c w
  refine ⟨rest, hcalls, hrest, ?_⟩
  intro x hx hkind
  rw [hcalls] at hx
  simp only [List.mem_cons, List.mem_append] at hx
  rcases hx with hx | hx | hx
  · subst hx
    rcases hkind with ⟨t, d, h⟩ | ⟨p, h⟩ <;> exact Call.noConfusion h
  · unfold loadCalls at hx
    by_cases he : c.String "env_file" = ""
    · simp [he] at hx
    · simp only [ne_eq, he, not_false_eq_true, if_true, List.mem_singleton] at hx
      subst hx
      rcases hkind with ⟨t, d, h⟩ | ⟨p, h⟩ <;> exact Call.noConfusion h
  · exact hx

/-- C9, at `env_file` set to `ci.env` and `vars` set to `{bad`: the load is
made, and then the run stops on the decode of `vars`; and with nothing
supplied no load is made. -/
theorem env_file_loaded_once_first_witness :
    (∃ rest, (run sampleExtern scenarioEnvFileBadVars []).calls = Call.Info ::
        ((if scenarioEnvFileBadVars.String "env_file" ≠ "" then
            [Call.Load (scenarioEnvFileBadVars.String "env_file")] else []) ++ rest) ∧
      (∀ x ∈ rest, x.isLoad = false) ∧
      (∀ x ∈ (run sampleExtern scenarioEnvFileBadVars []).calls,
        ((∃ t d, x = Call.Unmarshal t d) ∨ ∃ p, x = Call.Exec p) → x ∈ rest)) ∧
    (run sampleExtern scenarioEnvFileBadVars []).calls
      = [Call.Info, Call.Load "ci.env", Call.Unmarshal "vars" "\x7bbad"] ∧
    (run sampleExtern scenarioEnvFileBadVars []).outcome
      = Outcome.panicked JsonError.SyntaxError ∧
    ((run sampleExtern (appContext Supplied.none) []).calls.filter Call.isLoad).length = 0 :=
  ⟨env_file_loaded_once_first sampleExtern scenarioEnvFileBadVars [], rfl, rfl, rfl⟩

/-- C4: when `vars` (or `secrets`) is the empty text, as it is when left
unset, `run` makes no decode into that variable, hands `Exec` the nil map in
that field, and can stop only on the decode of the other map option; with the
other one fine it calls `Exec` and returns. -/
theorem empty_map_option_is_nil (X : Extern σ ε I F S) (c : Context) (w : σ)
    (o : MapOption) (h : c.String o.name = "") :
    (∀ x ∈ (run X c w).calls, x.isUnmarshalInto o.name = false) ∧
    (∀ p ∈ execCalls (run X c w).calls, o.field p.Config = none) ∧
    (∀ e, (run X c w).outcome = Outcome.panicked e →
      c.String o.other.name ≠ "" ∧ mapError (c.String o.other.name) = some e) ∧
    (MapOK (c.String o.other.name) →
      ∃ p r, execCalls (run X c w).calls = [p] ∧
        (run X c w).outcome = Outcome.returned r) ∧
    (∀ a : Supplied, a.strings o.name = none → (appContext a).String o.name = "") := by
  have hfield : o.field (aggregate X c).Config = none := by
    rw [field_aggregate, h]; rfl
  have habsent : ∀ a : Supplied, a.strings o.name = none →
      (appContext a).String o.name = "" := by
    intro a ha
    cases o with
    | vars =>
      show (a.strings "vars").getD "" = ""
      rw [show a.strings "vars" = none from ha]; rfl
    | secrets =>
      show (a.strings "secrets").getD "" = ""
      rw [show a.strings "secrets" = none from ha]; rfl
  by_cases ho : MapOK (c.String o.other.name)
  · obtain ⟨hv, hs⟩ := mapOK_both c o (Or.inl h) ho
    refine ⟨?_, ?_, ?_, fun _ => ⟨aggregate X c, _, execCalls_run_of_ok X c w hv hs,
      outcome_run_of_ok X c w hv hs⟩, habsent⟩
    · rw [run_of_ok X c w hv hs]
      intro x hx
      simp only [List.mem_cons, List.mem_append, List.mem_singleton, List.not_mem_nil,
        or_false] at hx
      rcases hx with hx | ((hx | hx) | hx) | hx
      · subst hx; rfl
      · exact isUnmarshalInto_loadCalls I F S c _ x hx
      · cases o with
        | vars =>
          rw [show c.String "vars" = "" from h, mapCalls_empty] at hx
          exact absurd hx (List.not_mem_nil x)
        | secrets =>
          exact isUnmarshalInto_mapCalls I F S _ _ _ (by decide) x hx
      · cases o with
        | vars =>
          exact isUnmarshalInto_mapCalls I F S _ _ _ (by decide) x hx
        | secrets =>
          rw [show c.String "secrets" = "" from h, mapCalls_empty] at hx
          exact absurd hx (List.not_mem_nil x)
      · rcases hx with hx | hx | hx | hx <;> subst hx <;> cases o <;> rfl
    · rw [execCalls_run_of_ok X c w hv hs]
      intro p hp
      rw [List.mem_singleton] at hp
      rw [hp]; exact hfield
    · intro e he
      rw [outcome_run_of_ok X c w hv hs] at he
      exact Outcome.noConfusion he
  · obtain ⟨hne, e, he⟩ := not_mapOK _ ho
    cases o with
    | vars =>
      have hv : MapOK (c.String "vars") := Or.inl h
      have hrun := run_of_secrets_error X c w e hv hne he
      rw [show c.String "vars" = "" from h, mapCalls_empty] at hrun
      refine ⟨?_, ?_, ?_, fun hok => absurd hok ho, habsent⟩
      · rw [hrun]
        intro x hx
        simp only [List.mem_cons, List.mem_append, List.mem_singleton, List.not_mem_nil,
          or_false] at hx
        rcases hx with hx | hx | hx
        · subst hx; rfl
        · exact isUnmarshalInto_loadCalls I F S c _ x hx
        · subst hx; rfl
      · rw [execCalls_of_secrets_error X c w e hv hne he]
        intro p hp
        exact absurd hp (List.not_mem_nil p)
      · intro e1 he1
        rw [hrun] at he1
        injection he1 with he1
        exact ⟨hne, by rw [← he1]; exact he⟩
    | secrets =>
      have hrun := run_of_vars_error X c w e hne he
      refine ⟨?_, ?_, ?_, fun hok => absurd hok ho, habsent⟩
      · rw [hrun]
        intro x hx
        simp only [List.mem_cons, List.mem_append, List.mem_singleton, List.not_mem_nil,
          or_false] at hx
        rcases hx with hx | hx | hx
        · subst hx; rfl
        · exact isUnmarshalInto_loadCalls I F S c _ x hx
        · subst hx; rfl
      · rw [execCalls_of_vars_error X c w e hne he]
        intro p hp
        exact absurd hp (List.not_mem_nil p)
      · intro e1 he1
        rw [hrun] at he1
        injection he1 with he1
        exact ⟨hne, by rw [← he1]; exact he⟩

/-- C4, at `vars` left unset and `secrets` set to `{"token":"abc"}`. -/
theorem empty_map_option_is_nil_witness :
    (appContext (suppliedStrings [("secrets", "\x7b\"token\":\"abc\"\x7d")])).String
        MapOption.vars.name = "" ∧
    ((∀ x ∈ (run sampleExtern
        (appContext (suppliedStrings [("secrets", "\x7b\"token\":\"abc\"\x7d")])) []).calls,
        x.isUnmarshalInto MapOption.vars.name = false) ∧
      (∀ p ∈ execCalls (run sampleExtern
        (appContext (suppliedStrings [("secrets", "\x7b\"token\":\"abc\"\x7d")])) []).calls,
        MapOption.vars.field p.Config = none) ∧
      (∀ e, (run sampleExtern
        (appContext (suppliedStrings [("secrets", "\x7b\"token\":\"abc\"\x7d")])) []).outcome
          = Outcome.panicked e →
        (appContext (suppliedStrings [("secrets", "\x7b\"token\":\"abc\"\x7d")])).String
            MapOption.vars.other.name ≠ "" ∧
          mapError ((appContext (suppliedStrings [("secrets", "\x7b\"token\":\"abc\"\x7d")])).String
            MapOption.vars.other.name) = some e) ∧
      (MapOK ((appContext (suppliedStrings [("secrets", "\x7b\"token\":\"abc\"\x7d")])).String
          MapOption.vars.other.name) →
        ∃ p r, execCalls (run sampleExtern
            (appContext (suppliedStrings [("secrets", "\x7b\"token\":\"abc\"\x7d")])) []).calls = [p] ∧
          (run sampleExtern
            (appContext (suppliedStrings [("secrets", "\x7b\"token\":\"abc\"\x7d")])) []).outcome
            = Outcome.returned r) ∧
      (∀ a : Supplied, a.strings MapOption.vars.name = none →
        (appContext a).String MapOption.vars.name = "")) ∧
    (execCalls (run sampleExtern
        (appContext (suppliedStrings [("secrets", "\x7b\"token\":\"abc\"\x7d")])) []).calls).map
      (fun p => (p.Config.Vars, p.Config.Secrets)) = [(none, some [("token", "abc")])] :=
  ⟨rfl,
    empty_map_option_is_nil sampleExtern
      (appContext (suppliedStrings [("secrets", "\x7b\"token\":\"abc\"\x7d")])) [] MapOption.vars rfl,
    rfl⟩

/-- C10: when `vars` (or `secrets`) is the text `null`, which is not empty and
not a JSON object, the decode is made and reports no error, leaving the nil
map; with the other map option fine `run` calls `Exec` with the nil map in
that field and returns. -/
theorem null_map_option (X : Extern σ ε I F S) (c : Context) (w : σ)
    (o : MapOption) (h : c.String o.name = "null") (ho : MapOK (c.String o.other.name)) :
    "null" ≠ "" ∧ parseJSON "null" = some JSON.null ∧
    Unmarshal storeMap "null" none = (none, none) ∧
    Call.Unmarshal o.name "null" ∈ (run X c w).calls ∧
    ∃ p r, execCalls (run X c w).calls = [p] ∧
      (run X c w).outcome = Outcome.returned r ∧ o.field p.Config = none := by
  have hok : MapOK (c.String o.name) := by rw [h]; exact Or.inr rfl
  obtain ⟨hv, hs⟩ := mapOK_both c o hok ho
  refine ⟨by decide, rfl, rfl, ?_, aggregate X c, _, execCalls_run_of_ok X c w hv hs,
    outcome_run_of_ok X c w hv hs, ?_⟩
  · rw [run_of_ok X c w hv hs]
    cases o with
    | vars =>
      rw [show c.String "vars" = "null" from h]
      simp [mapCalls, MapOption.name]
    | secrets =>
      rw [show c.String "secrets" = "null" from h]
      simp [mapCalls, MapOption.name]
  · rw [field_aggregate, h]; rfl

/-- C10, at `secrets` set to `null` and `vars` set to `{"a":"b"}`. -/
theorem null_map_option_witness :
    (appContext (suppliedStrings [("secrets", "null"), ("vars", "\x7b\"a\":\"b\"\x7d")])).String
        MapOption.secrets.name = "null" ∧
    MapOK ((appContext (suppliedStrings [("secrets", "null"),
      ("vars", "\x7b\"a\":\"b\"\x7d")])).String MapOption.secrets.other.name) ∧
    ("null" ≠ "" ∧ parseJSON "null" = some JSON.null ∧
      Unmarshal storeMap "null" none = (none, none) ∧
      Call.Unmarshal MapOption.secrets.name "null" ∈ (run sampleExtern
        (appContext (suppliedStrings [("secrets", "null"), ("vars", "\x7b\"a\":\"b\"\x7d")]))
        []).calls ∧
      ∃ p r, execCalls (run sampleExtern
          (appContext (suppliedStrings [("secrets", "null"), ("vars", "\x7b\"a\":\"b\"\x7d")]))
          []).calls = [p] ∧
        (run sampleExtern
          (appContext (suppliedStrings [("secrets", "null"), ("vars", "\x7b\"a\":\"b\"\x7d")]))
          []).outcome = Outcome.returned r ∧
        MapOption.secrets.field p.Config = none) :=
  ⟨rfl, by decide,
    null_map_option sampleExtern
      (appContext (suppliedStrings [("secrets", "null"), ("vars", "\x7b\"a\":\"b\"\x7d")])) []
      MapOption.secrets rfl (by decide)⟩

/-- C6: with `vars` and `secrets` fine, `run` calls `Exec` once, on the
aggregate, in the world left by the log line and the load, and ends by
returning exactly what `Exec` returned, nil or error, leaving the world as
`Exec` left it. -/
theorem run_returns_exec_result (X : Extern σ ε I F S) (c : Context) (w : σ)
    (hv : MapOK (c.String "vars")) (hs : MapOK (c.String "secrets")) :
    ∃ p, execCalls (run X c w).calls = [p] ∧
      (run X c w).outcome = Outcome.returned (X.Exec p (worldAtExec X c w)).1 ∧
      (run X c w).world = (X.Exec p (worldAtExec X c w)).2 :=
  ⟨aggregate X c, execCalls_run_of_ok X c w hv hs, outcome_run_of_ok X c w hv hs,
    world_run_of_ok X c w hv hs⟩

/-- C6, at `actions` set to the empty list, for which the sample `Exec`
returns an error: `run` returns that error. -/
theorem run_returns_exec_result_witness :
    MapOK ((appContext (Supplied.ofLists [] [] [] [("actions", [])])).String "vars") ∧
    MapOK ((appContext (Supplied.ofLists [] [] [] [("actions", [])])).String "secrets") ∧
    (∃ p, execCalls (run sampleExtern
        (appContext (Supplied.ofLists [] [] [] [("actions", [])])) []).calls = [p] ∧
      (run sampleExtern (appContext (Supplied.ofLists [] [] [] [("actions", [])])) []).outcome
        = Outcome.returned (sampleExtern.Exec p (worldAtExec sampleExtern
          (appContext (Supplied.ofLists [] [] [] [("actions", [])])) [])).1 ∧
      (run sampleExtern (appContext (Supplied.ofLists [] [] [] [("actions", [])])) []).world
        = (sampleExtern.Exec p (worldAtExec sampleExtern
          (appContext (Supplied.ofLists [] [] [] [("actions", [])])) [])).2) ∧
    (run sampleExtern (appContext (Supplied.ofLists [] [] [] [("actions", [])])) []).outcome
      = Outcome.returned (some "no actions") ∧
    (run sampleExtern (appContext Supplied.none) []).outcome = Outcome.returned none :=
  ⟨by decide, by decide,
    run_returns_exec_result sampleExtern
      (appContext (Supplied.ofLists [] [] [] [("actions", [])])) [] (by decide) (by decide),
    rfl, rfl⟩

/-- C5: with `vars` and `secrets` fine, the `Actions` of the aggregate handed
to `Exec` is the list supplied for `actions`, as it is, and the list
`validate`, `plan`, `apply` when none is supplied. -/
theorem actions_as_supplied (X : Extern σ ε I F S) (a : Supplied) (w : σ)
    (hv : MapOK ((appContext a).String "vars"))
    (hs : MapOK ((appContext a).String "secrets")) :
    ∃ p, execCalls (run X (appContext a) w).calls = [p] ∧
      (∀ xs, a.slices "actions" = some xs → p.Config.Actions = xs) ∧
      (a.slices "actions" = none → p.Config.Actions = ["validate", "plan", "apply"]) := by
  refine ⟨aggregate X (appContext a), execCalls_run_of_ok X _ w hv hs, ?_, ?_⟩
  · intro xs hx
    show (a.slices "actions").getD ["validate", "plan", "apply"] = xs
    rw [hx]; rfl
  · intro hx
    show (a.slices "actions").getD ["validate", "plan", "apply"] = _
    rw [hx]; rfl

/-- C5, at `actions` set to `plan`, and at a list with a repeated entry. -/
theorem actions_as_supplied_witness :
    MapOK ((appContext (Supplied.ofLists [] [] [] [("actions", ["plan"])])).String "vars") ∧
    MapOK ((appContext (Supplied.ofLists [] [] [] [("actions", ["plan"])])).String
      "secrets") ∧
    (∃ p, execCalls (run sampleExtern
        (appContext (Supplied.ofLists [] [] [] [("actions", ["plan"])])) []).calls = [p] ∧
      (∀ xs, (Supplied.ofLists [] [] [] [("actions", ["plan"])]).slices "actions" = some xs →
        p.Config.Actions = xs) ∧
      ((Supplied.ofLists [] [] [] [("actions", ["plan"])]).slices "actions" = none →
        p.Config.Actions = ["validate", "plan", "apply"])) ∧
    (execCalls (run sampleExtern
        (appContext (Supplied.ofLists [] [] [] [("actions", ["plan"])])) []).calls).map
      (fun p => p.Config.Actions) = [["plan"]] ∧
    (execCalls (run sampleExtern (appContext Supplied.none) []).calls).map
      (fun p => p.Config.Actions) = [["validate", "plan", "apply"]] ∧
    (execCalls (run sampleExtern
        (appContext (Supplied.ofLists [] [] [] [("actions", ["plan", "apply", "plan"])]))
        []).calls).map
      (fun p => p.Config.Actions) = [["plan", "apply", "plan"]] :=
  ⟨by decide, by decide,
    actions_as_supplied sampleExtern (Supplied.ofLists [] [] [] [("actions", ["plan"])]) []
      (by decide) (by decide),
    rfl, rfl, rfl⟩

/-- C7: with `vars` and `secrets` fine, each scalar and list field of the
aggregate handed to `Exec` is the value supplied for its option, and the
default of the option (`""`, `false`, `0`, the empty list) when none is
supplied. -/
theorem fields_are_bound_options (X : Extern σ ε I F S) (a : Supplied) (w : σ)
    (hv : MapOK ((appContext a).String "vars"))
    (hs : MapOK ((appContext a).String "secrets")) :
    ∃ p, execCalls (run X (appContext a) w).calls = [p] ∧
      p.Config.Cacert = (a.strings "ca_cert").getD "" ∧
      p.Config.Sensitive = (a.bools "sensitive").getD false ∧
      p.Config.RoleARN = (a.strings "role_arn_to_assume").getD "" ∧
      p.Config.RootDir = (a.strings "root_dir").getD "" ∧
      p.Config.SkipInit = (a.bools "skip_init").getD false ∧
      p.Config.SkipCleanup = (a.bools "skip_cleanup").getD false ∧
      p.Config.Parallelism = (a.ints "parallelism").getD 0 ∧
      p.Config.Targets = (a.slices "targets").getD [] ∧
      p.Config.VarFiles = (a.slices "var_files").getD [] ∧
      p.Config.TerraformDataDir = (a.strings "tf_data_dir").getD "" ∧
      p.Config.DisableRefresh = (a.bools "disable_refresh").getD false ∧
      p.Netrc.Login = (a.strings "netrc.username").getD "" ∧
      p.Netrc.Machine = (a.strings "netrc.machine").getD "" ∧
      p.Netrc.Password = (a.strings "netrc.password").getD "" ∧
      p.Terraform.Version = (a.strings "tf.version").getD "" :=
  ⟨aggregate X (appContext a), execCalls_run_of_ok X _ w hv hs,
    rfl, rfl, rfl, rfl, rfl, rfl, rfl, rfl, rfl, rfl, rfl, rfl, rfl, rfl, rfl⟩

/-- C7, at `skip_init` set to `true` and `parallelism` set to `4`, nothing
else supplied: the whole aggregate handed to `Exec`. -/
theorem fields_are_bound_options_witness :
    MapOK ((appContext scenarioScalars).String "vars") ∧
    MapOK ((appContext scenarioScalars).String "secrets") ∧
    (∃ p, execCalls (run sampleExtern (appContext scenarioScalars) []).calls = [p] ∧
      p.Config.Cacert = (scenarioScalars.strings "ca_cert").getD "" ∧
      p.Config.Sensitive = (scenarioScalars.bools "sensitive").getD false ∧
      p.Config.RoleARN = (scenarioScalars.strings "role_arn_to_assume").getD "" ∧
      p.Config.RootDir = (scenarioScalars.strings "root_dir").getD "" ∧
      p.Config.SkipInit = (scenarioScalars.bools "skip_init").getD false ∧
      p.Config.SkipCleanup = (scenarioScalars.bools "skip_cleanup").getD false ∧
      p.Config.Parallelism = (scenarioScalars.ints "parallelism").getD 0 ∧
      p.Config.Targets = (scenarioScalars.slices "targets").getD [] ∧
      p.Config.VarFiles = (scenarioScalars.slices "var_files").getD [] ∧
      p.Config.TerraformDataDir = (scenarioScalars.strings "tf_data_dir").getD "" ∧
      p.Config.DisableRefresh = (scenarioScalars.bools "disable_refresh").getD false ∧
      p.Netrc.Login = (scenarioScalars.strings "netrc.username").getD "" ∧
      p.Netrc.Machine = (scenarioScalars.strings "netrc.machine").getD "" ∧
      p.Netrc.Password = (scenarioScalars.strings "netrc.password").getD "" ∧
      p.Terraform.Version = (scenarioScalars.strings "tf.version").getD "") ∧
    execCalls (run sampleExtern (appContext scenarioScalars) []).calls =
      [{ Config :=
           { Actions := ["validate", "plan", "apply"], Vars := none, Secrets := none,
             InitOptions := [], FmtOptions := [], SummarizeOptions := [],
             Cacert := "", Sensitive := false, RoleARN := "", RootDir := "",
             SkipInit := true, SkipCleanup := false, Parallelism := 4,
             Targets := [], VarFiles := [], TerraformDataDir := "",
             DisableRefresh := false },
         Netrc := { Login := "", Machine := "", Password := "" },
         Terraform := { Version := "" } }] :=
  ⟨by decide, by decide,
    fields_are_bound_options sampleExtern scenarioScalars [] (by decide) (by decide), rfl⟩

theorem worldAtExec_of_env_file (X : Extern σ ε I F S) (c : Context) (w : σ)
    (hne : c.String "env_file" ≠ "") :
    worldAtExec X c w = (X.Load (c.String "env_file") (X.Info w)).2 := by
  simp [worldAtExec, hne]

/-- C8, as amended: let the load of a named env-file fail, and compare with
the same run where the load succeeds instead (`L` in place of `Load`). Both
runs make the same calls, so the same decodes and the same aggregate handed
to `Exec`; a panic of the one is a panic of the other, with the error of a
decode, never the error of the load; a return is the return of `Exec` on that
aggregate in the world the load left. So both end alike whenever `Exec`
answers alike in the two worlds, and they are the same run when the two loads
leave the same world. -/
theorem env_file_load_failure_ignored (X : Extern σ ε I F S) (c : Context) (w : σ)
    (L : String → σ → Option ε × σ) (err : ε)
    (hne : c.String "env_file" ≠ "")
    (_hfail : (X.Load (c.String "env_file") (X.Info w)).1 = some err)
    (_hok : (L (c.String "env_file") (X.Info w)).1 = none) :
    (run X c w).calls = (run { X with Load := L } c w).calls ∧
    (∀ e, (run X c w).outcome = Outcome.panicked e ↔
      (run { X with Load := L } c w).outcome = Outcome.panicked e) ∧
    (∀ e, (run X c w).outcome = Outcome.panicked e →
      mapError (c.String "vars") = some e ∨ mapError (c.String "secrets") = some e) ∧
    (∀ r, (run X c w).outcome = Outcome.returned r →
      r = (X.Exec (aggregate X c) (X.Load (c.String "env_file") (X.Info w)).2).1) ∧
    ((X.Exec (aggregate X c) (X.Load (c.String "env_file") (X.Info w)).2).1
        = (X.Exec (aggregate X c) (L (c.String "env_file") (X.Info w)).2).1 →
      (run X c w).outcome = (run { X with Load := L } c w).outcome) ∧
    ((X.Load (c.String "env_file") (X.Info w)).2 = (L (c.String "env_file") (X.Info w)).2 →
      run X c w = run { X with Load := L } c w) := by
  have hw := worldAtExec_of_env_file X c w hne
  have hw2 : worldAtExec { X with Load := L } c w = (L (c.String "env_file") (X.Info w)).2 :=
    worldAtExec_of_env_file { X with Load := L } c w hne
  have hagg : aggregate { X with Load := L } c = aggregate X c := rfl
  by_cases hv : MapOK (c.String "vars")
  · by_cases hs : MapOK (c.String "secrets")
    · rw [run_of_ok X c w hv hs, run_of_ok { X with Load := L } c w hv hs, hw, hw2, hagg]
      refine ⟨rfl, fun e => ⟨fun h => Outcome.noConfusion h, fun h => Outcome.noConfusion h⟩,
        fun e h => Outcome.noConfusion h, ?_, ?_, ?_⟩
      · intro r h
        injection h with h
        exact h.symm
      · intro h
        show Outcome.returned _ = Outcome.returned _
        rw [h]
      · intro h
        show Ran.mk _ _ _ = Ran.mk _ _ _
        rw [h]
    · obtain ⟨hne2, e, he⟩ := not_mapOK _ hs
      rw [run_of_secrets_error X c w e hv hne2 he,
        run_of_secrets_error { X with Load := L } c w e hv hne2 he, hw, hw2]
      refine ⟨rfl, fun e1 => Iff.rfl, ?_, fun r h => Outcome.noConfusion h, fun _ => rfl, ?_⟩
      · intro e1 h
        injection h with h
        exact Or.inr (by rw [← h]; exact he)
      · intro h
        show Ran.mk _ _ _ = Ran.mk _ _ _
        rw [h]
  · obtain ⟨hne1, e, he⟩ := not_mapOK _ hv
    rw [run_of_vars_error X c w e hne1 he,
      run_of_vars_error { X with Load := L } c w e hne1 he, hw, hw2]
    refine ⟨rfl, fun e1 => Iff.rfl, ?_, fun r h => Outcome.noConfusion h, fun _ => rfl, ?_⟩
    · intro e1 h
      injection h with h
      exact Or.inl (by rw [← h]; exact he)
    · intro h
      show Ran.mk _ _ _ = Ran.mk _ _ _
      rw [h]

/-- C8, at `env_file` set to `missing.env`, whose load fails in the sample
world, against a load that succeeds and changes the world: the same calls
and, the sample `Exec` answering alike in both worlds, the same end. -/
theorem env_file_load_failure_ignored_witness :
    scenarioMissingEnvFile.String "env_file" ≠ "" ∧
    (sampleExtern.Load (scenarioMissingEnvFile.String "env_file") (sampleExtern.Info [])).1
      = some "open missing.env: no such file or directory" ∧
    (sampleLoadOk (scenarioMissingEnvFile.String "env_file") (sampleExtern.Info [])).1 = none ∧
    ((run sampleExtern scenarioMissingEnvFile []).calls
        = (run { sampleExtern with Load := sampleLoadOk } scenarioMissingEnvFile []).calls ∧
      (∀ e, (run sampleExtern scenarioMissingEnvFile []).outcome = Outcome.panicked e ↔
        (run { sampleExtern with Load := sampleLoadOk } scenarioMissingEnvFile []).outcome
          = Outcome.panicked e) ∧
      (∀ e, (run sampleExtern scenarioMissingEnvFile []).outcome = Outcome.panicked e →
        mapError (scenarioMissingEnvFile.String "vars") = some e ∨
          mapError (scenarioMissingEnvFile.String "secrets") = some e) ∧
      (∀ r, (run sampleExtern scenarioMissingEnvFile []).outcome = Outcome.returned r →
        r = (sampleExtern.Exec (aggregate sampleExtern scenarioMissingEnvFile)
          (sampleExtern.Load (scenarioMissingEnvFile.String "env_file")
            (sampleExtern.Info [])).2).1) ∧
      ((sampleExtern.Exec (aggregate sampleExtern scenarioMissingEnvFile)
          (sampleExtern.Load (scenarioMissingEnvFile.String "env_file")
            (sampleExtern.Info [])).2).1
          = (sampleExtern.Exec (aggregate sampleExtern scenarioMissingEnvFile)
            (sampleLoadOk (scenarioMissingEnvFile.String "env_file")
              (sampleExtern.Info [])).2).1 →
        (run sampleExtern scenarioMissingEnvFile []).outcome
          = (run { sampleExtern with Load := sampleLoadOk } scenarioMissingEnvFile
            []).outcome) ∧
      ((sampleExtern.Load (scenarioMissingEnvFile.String "env_file")
          (sampleExtern.Info [])).2
          = (sampleLoadOk (scenarioMissingEnvFile.String "env_file")
            (sampleExtern.Info [])).2 →
        run sampleExtern scenarioMissingEnvFile []
          = run { sampleExtern with Load := sampleLoadOk } scenarioMissingEnvFile [])) ∧
    (run sampleExtern scenarioMissingEnvFile []).outcome = Outcome.returned none ∧
    (run { sampleExtern with Load := sampleLoadOk } scenarioMissingEnvFile []).outcome
      = Outcome.returned none :=
  ⟨by decide, rfl, rfl,
    env_file_load_failure_ignored sampleExtern scenarioMissingEnvFile [] sampleLoadOk
      "open missing.env: no such file or directory" (by decide) rfl rfl,
    rfl, rfl⟩

/-- C8 as stated fails in its last part: with an `Exec` that reads the world,
a named env-file whose load fails and, in its place, a load that succeeds,
the two runs make the same calls and hand `Exec` the same aggregate, yet the
run after the failed load returns the error of `Exec` and the run after the
successful load returns nil. -/
theorem env_file_load_failure_counterexample :
    scenarioMissingEnvFile.String "env_file" ≠ "" ∧
    (sampleExternReading.Load (scenarioMissingEnvFile.String "env_file")
        (sampleExternReading.Info [])).1
      = some "open missing.env: no such file or directory" ∧
    (sampleLoadOk (scenarioMissingEnvFile.String "env_file")
        (sampleExternReading.Info [])).1 = none ∧
    (run sampleExternReading scenarioMissingEnvFile []).calls
      = (run { sampleExternReading with Load := sampleLoadOk } scenarioMissingEnvFile
        []).calls ∧
    (run sampleExternReading scenarioMissingEnvFile []).outcome
      = Outcome.returned (some "missing credentials") ∧
    (run { sampleExternReading with Load := sampleLoadOk } scenarioMissingEnvFile []).outcome
      = Outcome.returned none ∧
    (run sampleExternReading scenarioMissingEnvFile []).outcome
      ≠ (run { sampleExternReading with Load := sampleLoadOk } scenarioMissingEnvFile
        []).outcome := by
  refine ⟨by decide, rfl, rfl, rfl, rfl, rfl, ?_⟩
  intro h
  have h1 : (Outcome.returned (some "missing credentials") : Outcome String)
      = Outcome.returned none := h
  injection h1 with h2
  exact Option.noConfusion h2

end DroneTerraform
